import Mathlib

/-!
Verification development for the cpom library (closest point on mesh).

The C++ sources are shallowly embedded over exact rational arithmetic:
the 32-bit float fields of Float3 become rationals, C++ exceptions become
an explicit error type threaded through Except, and the all-NaN sentinel
returned when no surface lies within the search radius becomes the value
none of an Option type.
-/

set_option allowUnsafeReducibility true
attribute [local semireducible] Rat.add Rat.mul Rat.sub Rat.div Rat.neg Rat.inv Rat.blt

/-- Decidable equality of Except values, used to evaluate the embedded
operations on concrete inputs. -/
instance {ε α : Type _} [DecidableEq ε] [DecidableEq α] :
    DecidableEq (Except ε α) := fun a b =>
  match a, b with
  | .error e, .error f =>
      if h : e = f then .isTrue (congrArg Except.error h)
      else .isFalse (fun hh => h (Except.error.inj hh))
  | .error _, .ok _ => .isFalse (fun hh => Except.noConfusion hh)
  | .ok _, .error _ => .isFalse (fun hh => Except.noConfusion hh)
  | .ok x, .ok y =>
      if h : x = y then .isTrue (congrArg Except.ok h)
      else .isFalse (fun hh => h (Except.ok.inj hh))

namespace cpom

/-- Error kind corresponding to the std invalid-argument exceptions thrown
by the library: an empty vertex list at construction, a face whose arity is
outside 3..4, and a triangle whose vertices are collinear (det = 0). -/
inductive Err : Type where
  | emptyMesh : Err
  | unsupportedArity : Err
  | degenerateTriangle : Err
deriving DecidableEq, Repr

/-- Embedding of struct Float3 (Float3.h): a three dimensional coordinate,
with exact rationals in place of 32-bit floats. -/
structure Float3 : Type where
  x : ℚ
  y : ℚ
  z : ℚ
deriving DecidableEq, Repr

/-- Point is an alias of Float3, as in Float3.h. -/
abbrev Point : Type := Float3

namespace Float3

/-- Componentwise addition operator of Float3. -/
instance : Add Float3 := ⟨fun u v => ⟨u.x + v.x, u.y + v.y, u.z + v.z⟩⟩

/-- Componentwise subtraction operator of Float3. -/
instance : Sub Float3 := ⟨fun u v => ⟨u.x - v.x, u.y - v.y, u.z - v.z⟩⟩

/-- Multiplication operator of Float3 with a scalar. -/
instance : HMul Float3 ℚ Float3 := ⟨fun u k => ⟨u.x * k, u.y * k, u.z * k⟩⟩

/-- Multiplication of a scalar with a Float3 (used as 0.5f * v). -/
instance : HMul ℚ Float3 Float3 := ⟨fun k u => ⟨k * u.x, k * u.y, k * u.z⟩⟩

/-- Constructor Float3(float n) setting x = y = z = n. -/
def ofScalar (n : ℚ) : Float3 := ⟨n, n, n⟩

/-- Dot product with another Float3. -/
def dot (u v : Float3) : ℚ := u.x * v.x + u.y * v.y + u.z * v.z

/-- Float3 holding the absolute value of each component. -/
def abs (u : Float3) : Float3 := ⟨|u.x|, |u.y|, |u.z|⟩

/-- Square of the length of the vector x, y, z. -/
def sqrLength (u : Float3) : ℚ := u.dot u

end Float3

/-- Embedding of struct Face (Mesh.h): the vertex ids that form a mesh
face, as indices into the vertex list. -/
structure Face : Type where
  vertexIds : List ℕ
deriving DecidableEq, Repr

/-- Snapshot of the data a Mesh provider yields: the vertex list and the
face list (the Mesh interface of Mesh.h, with both getters taken at once). -/
structure Mesh : Type where
  vertices : List Point
  faces : List Face
deriving DecidableEq, Repr

/-- Embedding of struct AABCube (OctreeNode.h): an axis aligned bounding
cube given by a center and a scalar half width. -/
structure AABCube : Type where
  center : Point
  halfWidth : ℚ
deriving DecidableEq, Repr

/-- Embedding of struct AABBox (ClosestPointQuery.cpp): an axis aligned
bounding box given by a center and a componentwise half width. -/
structure AABBox : Type where
  center : Point
  halfWidth : Float3
deriving DecidableEq, Repr

/-- Lookup of a vertex by index; the C++ code indexes the vector directly
and the library precondition keeps every index in range, so out of range
indices are mapped to the origin here. -/
def getVertex (vertices : List Point) (i : ℕ) : Point :=
  vertices.getD i ⟨0, 0, 0⟩

/-- Embedding of computeClosestPointOnTriangle (ClosestPointQuery.cpp,
lines 64-221), the seven region Eberly case analysis, transcribed branch
by branch.  The pair returned by each branch is (s2, t2).  Note that in
the edge branch of Region 6 the source line 188 assigns s2 = 1 - s2 while
s2 still holds its initial value s1, so the transcription reads 1 - s1
there. -/
def computeClosestPointOnTriangle (vertex0 vertex1 vertex2 fromPoint : Point) :
    Except Err (Point × ℚ) :=
  let edge0 := vertex1 - vertex0
  let edge1 := vertex2 - vertex0
  let v0 := vertex0 - fromPoint
  let a := edge0.dot edge0
  let b := edge0.dot edge1
  let c := edge1.dot edge1
  let d := edge0.dot v0
  let e := edge1.dot v0
  let det := a * c - b * b
  let s1 := b * e - c * d
  let t1 := b * d - a * e
  if det = 0 then .error .degenerateTriangle
  else
    let st : ℚ × ℚ :=
      if s1 + t1 ≤ det then
        if s1 < 0 then
          if t1 < 0 then
            -- Region 4
            if d < 0 then
              if -d ≥ a then (1, 0) else (-d / a, 0)
            else
              if e ≥ 0 then (0, 0)
              else if -e ≥ c then (0, 1)
              else (0, -e / c)
          else
            -- Region 3
            if e ≥ 0 then (0, 0)
            else if -e ≥ c then (0, 1)
            else (0, -e / c)
        else if t1 < 0 then
          -- Region 5
          if d ≥ 0 then (0, 0)
          else if -d ≥ a then (1, 0)
          else (-d / a, 0)
        else
          -- Region 0
          (s1 * (1 / det), t1 * (1 / det))
      else
        if s1 < 0 then
          -- Region 2
          let tmp0 := b + d
          let tmp1 := c + e
          if tmp1 > tmp0 then
            let num := tmp1 - tmp0
            let denom := a - 2 * b + c
            let s2 := if num ≥ denom then 1 else num / denom
            (s2, 1 - s2)
          else
            if tmp1 ≤ 0 then ((0 : ℚ), (1 : ℚ))
            else if e ≥ 0 then ((0 : ℚ), (0 : ℚ))
            else ((0 : ℚ), -e / c)
        else if t1 < 0 then
          -- Region 6
          let tmp0 := b + e
          let tmp1 := a + d
          if tmp1 > tmp0 then
            let num := tmp1 - tmp0
            let denom := a - 2 * b + c
            let t2 := if num ≥ denom then 1 else num / denom
            -- source line 188: s2 = 1 - s2, with s2 still equal to s1
            (1 - s1, t2)
          else
            if tmp1 ≤ 0 then ((1 : ℚ), (0 : ℚ))
            else if d ≥ 0 then ((0 : ℚ), (0 : ℚ))
            else (-d / a, (0 : ℚ))
        else
          -- Region 1
          let num := c + e - b - d
          let s2 : ℚ :=
            if num ≤ 0 then 0
            else
              let denom := a - 2 * b + c
              if num ≥ denom then 1 else num / denom
          (s2, 1 - s2)
    let closestPoint := vertex0 + edge0 * st.1 + edge1 * st.2
    .ok (closestPoint, (fromPoint - closestPoint).sqrLength)

/-- Embedding of computeClosestPointOnFace (ClosestPointQuery.cpp, lines
235-250): triangle faces use the triangle solver directly, quadrilateral
faces evaluate the two triangles sharing the diagonal v0 v2 and keep the
result with the strictly smaller squared distance (ties keep the first),
and any other arity is an unsupported arity error. -/
def computeClosestPointOnFace (face : Face) (vertices : List Point)
    (queryPoint : Point) : Except Err (Point × ℚ) :=
  if face.vertexIds.length < 3 ∨ 4 < face.vertexIds.length then
    .error .unsupportedArity
  else
    let v0 := getVertex vertices (face.vertexIds.getD 0 0)
    let v1 := getVertex vertices (face.vertexIds.getD 1 0)
    let v2 := getVertex vertices (face.vertexIds.getD 2 0)
    match computeClosestPointOnTriangle v0 v1 v2 queryPoint with
    | .error err => .error err
    | .ok result1 =>
      if face.vertexIds.length = 3 then .ok result1
      else
        let v3 := getVertex vertices (face.vertexIds.getD 3 0)
        match computeClosestPointOnTriangle v2 v3 v0 queryPoint with
        | .error err => .error err
        | .ok result2 => .ok (if result2.2 < result1.2 then result2 else result1)

/-- Componentwise subtraction operator of Float3 with a scalar. -/
instance : HSub Float3 ℚ Float3 := ⟨fun u k => ⟨u.x - k, u.y - k, u.z - k⟩⟩

/-- Extent type alias: a pair of minimum and maximum corner points. -/
abbrev Extent : Type := Point × Point

/-- Embedding of growExtent (ClosestPointQuery.cpp, lines 253-262): grow a
given extent to include a given point. -/
def growExtent (extent : Extent) (point : Point) : Extent :=
  (⟨min extent.1.x point.x, min extent.1.y point.y, min extent.1.z point.z⟩,
   ⟨max extent.2.x point.x, max extent.2.y point.y, max extent.2.z point.z⟩)

/-- Left fold of growExtent over a point list.  The C++ code seeds the fold
with the extent (Point(infinity), Point(-infinity)); rationals have no
infinities, so the not yet seeded state is modelled by none, and the first
point yields the extent (p, p) exactly as growing the infinite seed does. -/
def extentOf : List Point → Option Extent :=
  List.foldl
    (fun acc p =>
      match acc with
      | none => some (p, p)
      | some extent => some (growExtent extent p)) none

/-- Extent of the vertices selected by a list of vertex ids, as folded by
growFaceExtent inside partitionSpace (ClosestPointQuery.cpp, lines 375-384),
with the same modelling of the infinite seed as extentOf. -/
def extentOfIds (vertices : List Point) (ids : List ℕ) : Option Extent :=
  ids.foldl
    (fun acc i =>
      match acc with
      | none => some (getVertex vertices i, getVertex vertices i)
      | some extent => some (growExtent extent (getVertex vertices i))) none

/-- Embedding of computeCubicBounds (ClosestPointQuery.cpp, lines 265-273):
the smallest bounding cube of an extent. -/
def computeCubicBounds (extent : Extent) : AABCube :=
  let dimensions := extent.2 - extent.1
  { center := (extent.1 + extent.2) * (1 / 2 : ℚ),
    halfWidth := (1 / 2 : ℚ) * max dimensions.x (max dimensions.y dimensions.z) }

/-- Embedding of computeBounds (ClosestPointQuery.cpp, lines 276-283): the
smallest bounding box of an extent. -/
def computeBounds (extent : Extent) : AABBox :=
  let dimensions := extent.2 - extent.1
  { center := (extent.1 + extent.2) * (1 / 2 : ℚ),
    halfWidth := dimensions * (1 / 2 : ℚ) }

/-- Embedding of computeSqrDistanceToBounds (ClosestPointQuery.cpp, lines
286-293): squared distance from a point to the closest point of a bounding
cube. -/
def computeSqrDistanceToBounds (queryPoint : Point) (bounds : AABCube) : ℚ :=
  let d := (queryPoint - bounds.center).abs - bounds.halfWidth
  Float3.sqrLength ⟨max d.x 0, max d.y 0, max d.z 0⟩

/-- Embedding of the templated class OctreeNode (OctreeNode.h): a leaf flag,
an element list, cube bounds, and eight optional children. -/
inductive OctreeNode (α : Type) : Type where
  | mk (elements : List α) (bounds : AABCube) (leafFlag : Bool)
       (c0 c1 c2 c3 c4 c5 c6 c7 : Option (OctreeNode α))

namespace OctreeNode

variable {α : Type}

/-- Element list of a node. -/
def elements : OctreeNode α → List α
  | ⟨el, _, _, _, _, _, _, _, _, _, _⟩ => el

/-- Embedding of getBounds. -/
def bounds : OctreeNode α → AABCube
  | ⟨_, b, _, _, _, _, _, _, _, _, _⟩ => b

/-- Embedding of isLeaf. -/
def isLeaf : OctreeNode α → Bool
  | ⟨_, _, leaf, _, _, _, _, _, _, _, _⟩ => leaf

/-- Child slot of a node, by index 0..7. -/
def child : OctreeNode α → ℕ → Option (OctreeNode α)
  | ⟨_, _, _, c0, c1, c2, c3, c4, c5, c6, c7⟩, i =>
    match i with
    | 0 => c0 | 1 => c1 | 2 => c2 | 3 => c3
    | 4 => c4 | 5 => c5 | 6 => c6 | 7 => c7
    | _ => none

/-- Replace a child slot of a node, by index 0..7. -/
def setChild : OctreeNode α → ℕ → Option (OctreeNode α) → OctreeNode α
  | ⟨el, b, leaf, c0, c1, c2, c3, c4, c5, c6, c7⟩, i, c =>
    match i with
    | 0 => ⟨el, b, leaf, c, c1, c2, c3, c4, c5, c6, c7⟩
    | 1 => ⟨el, b, leaf, c0, c, c2, c3, c4, c5, c6, c7⟩
    | 2 => ⟨el, b, leaf, c0, c1, c, c3, c4, c5, c6, c7⟩
    | 3 => ⟨el, b, leaf, c0, c1, c2, c, c4, c5, c6, c7⟩
    | 4 => ⟨el, b, leaf, c0, c1, c2, c3, c, c5, c6, c7⟩
    | 5 => ⟨el, b, leaf, c0, c1, c2, c3, c4, c, c6, c7⟩
    | 6 => ⟨el, b, leaf, c0, c1, c2, c3, c4, c5, c, c7⟩
    | 7 => ⟨el, b, leaf, c0, c1, c2, c3, c4, c5, c6, c⟩
    | _ => ⟨el, b, leaf, c0, c1, c2, c3, c4, c5, c6, c7⟩

/-- Constructor OctreeNode(bounds): a fresh leaf with no elements and no
children. -/
def leafNode (bounds : AABCube) : OctreeNode α :=
  ⟨[], bounds, true, none, none, none, none, none, none, none, none⟩

/-- Append an element to the element list (push_back). -/
def pushElem : OctreeNode α → α → OctreeNode α
  | ⟨el, b, leaf, c0, c1, c2, c3, c4, c5, c6, c7⟩, e =>
    ⟨el ++ [e], b, leaf, c0, c1, c2, c3, c4, c5, c6, c7⟩

/-- State of a node right after subdivision started: the leaf flag is
cleared, and the element list is empty because the subdivision loop of
walkInsert pops every element while re-inserting it. -/
def subdivided : OctreeNode α → OctreeNode α
  | ⟨_, b, _, c0, c1, c2, c3, c4, c5, c6, c7⟩ =>
    ⟨[], b, false, c0, c1, c2, c3, c4, c5, c6, c7⟩

/-- Embedding of getChildBounds (OctreeNode.h, lines 599-619): the bounds
of an existing child, or the cube computed from the parent bounds and the
sign bits of the child index. -/
def getChildBounds (n : OctreeNode α) (index : ℕ) : AABCube :=
  match n.child index with
  | some c => c.bounds
  | none =>
    let hw := n.bounds.halfWidth * (1 / 2 : ℚ)
    { halfWidth := hw,
      center :=
        ⟨n.bounds.center.x + (if index &&& 1 ≠ 0 then 1 else -1) * hw,
         n.bounds.center.y + (if index &&& 2 ≠ 0 then 1 else -1) * hw,
         n.bounds.center.z + (if index &&& 4 ≠ 0 then 1 else -1) * hw⟩ }

/-- Pass over the eight child slots used by the internal branch of
walkInsert (OctreeNode.h, lines 656-673): for each index whose child bounds
intersect the element, materialize the child on demand and run the supplied
recursive insertion on it. -/
def childrenInsert (intersect : AABCube → α → Bool)
    (recur : OctreeNode α → α → OctreeNode α)
    (node : OctreeNode α) (element : α) : OctreeNode α :=
  (List.range 8).foldl
    (fun n i =>
      let childBounds := n.getChildBounds i
      if intersect childBounds element then
        n.setChild i (some (recur ((n.child i).getD (leafNode childBounds)) element))
      else n) node

/-- Embedding of walkInsert (OctreeNode.h, lines 622-674).  The C++
recursion re-enters the same node after subdivision, which the embedding
inlines: the popped elements (taken from the back) and then the incoming
element are pushed through the child slots.  The extra fuel argument makes
the recursion structural; a fuel of maxDepth + 2 is never exhausted because
subdivision is gated by depth < maxDepth. -/
def walkInsert (intersect : AABCube → α → Bool) (maxDepth : ℕ) (maxFill : ℚ) :
    ℕ → ℕ → OctreeNode α → α → OctreeNode α
  | 0, _, node, _ => node
  | fuel + 1, depth, node, element =>
    if node.isLeaf then
      let depthFill : ℚ := (node.elements.length : ℚ) / (1 + (depth : ℚ))
      if depthFill > maxFill ∧ depth < maxDepth then
        (node.elements.reverse ++ [element]).foldl
          (fun n e =>
            childrenInsert intersect
              (walkInsert intersect maxDepth maxFill fuel (depth + 1)) n e)
          node.subdivided
      else node.pushElem element
    else
      childrenInsert intersect
        (walkInsert intersect maxDepth maxFill fuel (depth + 1)) node element

mutual

/-- Number of nodes of the tree rooted at a node. -/
def treeSize : OctreeNode α → ℕ
  | ⟨_, _, _, c0, c1, c2, c3, c4, c5, c6, c7⟩ =>
    1 + childSize c0 + childSize c1 + childSize c2 + childSize c3 +
      childSize c4 + childSize c5 + childSize c6 + childSize c7

/-- Number of nodes of the tree rooted at an optional child. -/
def childSize : Option (OctreeNode α) → ℕ
  | none => 0
  | some t => treeSize t

end

/-- Embedding of insert (OctreeNode.h, lines 591-597): walkInsert from
depth 0; the C++ defaults are maxDepth = 10 and maxFill = 3.0. -/
def insert (intersect : AABCube → α → Bool) (maxDepth : ℕ) (maxFill : ℚ)
    (fuel : ℕ) (node : OctreeNode α) (element : α) : OctreeNode α :=
  walkInsert intersect maxDepth maxFill fuel 0 node element

mutual

/-- Depth and element count of every leaf below a node, in child index
order, starting from the given depth; this mirrors the visitNode traversal
of the octree unit test (OctreeNode.ut.cpp, lines 104-134). -/
def leafStats : OctreeNode α → ℕ → List (ℕ × ℕ)
  | ⟨el, _, leaf, c0, c1, c2, c3, c4, c5, c6, c7⟩, depth =>
    if leaf then [(depth, el.length)]
    else
      childStats c0 (depth + 1) ++ childStats c1 (depth + 1) ++
      childStats c2 (depth + 1) ++ childStats c3 (depth + 1) ++
      childStats c4 (depth + 1) ++ childStats c5 (depth + 1) ++
      childStats c6 (depth + 1) ++ childStats c7 (depth + 1)

/-- Leaf statistics of an optional child. -/
def childStats : Option (OctreeNode α) → ℕ → List (ℕ × ℕ)
  | none, _ => []
  | some t, depth => leafStats t depth

end

end OctreeNode

/-- Embedding of the intersect helper of the octree unit test
(OctreeNode.ut.cpp, lines 14-20): a point element intersects a cube when
it lies inside the cube. -/
def pointInCube (cube : AABCube) (point : Point) : Bool :=
  let distances := (cube.center - point).abs
  decide (distances.x ≤ cube.halfWidth ∧ distances.y ≤ cube.halfWidth ∧
    distances.z ≤ cube.halfWidth)

/-- Octree element type of the query engine: a face together with its
bounding box (the C++ element borrows the face by pointer; the embedding
stores the face by value). -/
abbrev OctreeElement : Type := Face × AABBox

/-- Embedding of the intersect helper (ClosestPointQuery.cpp, lines 38-46):
an octree element intersects a cube when, on every axis, the distance of
the centers is at most the sum of the half widths. -/
def intersectElement (cube : AABCube) (element : OctreeElement) : Bool :=
  let box := element.2
  let distances := (cube.center - box.center).abs
  let halfWidthSum := Float3.ofScalar cube.halfWidth + box.halfWidth
  decide (distances.x ≤ halfWidthSum.x ∧ distances.y ≤ halfWidthSum.y ∧
    distances.z ≤ halfWidthSum.z)

/-- Face count threshold below which no octree is built
(minSpacePartitioningFaces, ClosestPointQuery.cpp line 331). -/
def minSpacePartitioningFaces : ℕ := 32

/-- Fuel used for octree insertion by the engine: two more than the default
maxDepth of 10, which the insertion recursion never exhausts. -/
def cpqInsertFuel : ℕ := 12

/-- Embedding of ClosestPointQuery::Impl::partitionSpace
(ClosestPointQuery.cpp, lines 359-391): fold the mesh extent, build the
cubic root, and insert every face with its bounding box. -/
def partitionSpace (vertices : List Point) (faces : List Face) :
    OctreeNode OctreeElement :=
  let meshExtent := (extentOf vertices).getD (⟨0, 0, 0⟩, ⟨0, 0, 0⟩)
  let rootNode : OctreeNode OctreeElement :=
    OctreeNode.leafNode (computeCubicBounds meshExtent)
  faces.foldl
    (fun node face =>
      let faceExtent :=
        (extentOfIds vertices face.vertexIds).getD (⟨0, 0, 0⟩, ⟨0, 0, 0⟩)
      node.insert intersectElement 10 3 cpqInsertFuel
        (face, computeBounds faceExtent)) rootNode

/-- Embedding of struct ClosestPointQuery::Impl: the vertex and face
snapshots and the optional partitioned space. -/
structure Impl : Type where
  m_vertices : List Point
  m_faces : List Face
  m_partitionedSpace : Option (OctreeNode OctreeElement)

/-- Embedding of the Impl constructor (ClosestPointQuery.cpp, lines
322-336): snapshot the mesh, fail on an empty vertex list, and build the
partitioned space only when the face count reaches the threshold. -/
def mkImpl (m : Mesh) : Except Err Impl :=
  if m.vertices.isEmpty then .error .emptyMesh
  else
    .ok { m_vertices := m.vertices
          m_faces := m.faces
          m_partitionedSpace :=
            if minSpacePartitioningFaces ≤ m.faces.length then
              some (partitionSpace m.vertices m.faces)
            else none }

/-- Update step of the closest point reduction (the lambda
reduceClosestPointOnFace, ClosestPointQuery.cpp lines 343-351, also used by
visitElement at lines 416-425): keep the new candidate only if its squared
distance beats both the radius bound and the current best.  The initial
accumulator (NaN point, infinity) is modelled by none, against which every
candidate below the radius bound wins. -/
def updateClosest (sqrMaxDist : ℚ) (acc : Option (Point × ℚ))
    (faceClosest : Point × ℚ) : Option (Point × ℚ) :=
  match acc with
  | none => if faceClosest.2 < sqrMaxDist then some faceClosest else none
  | some inputClosest =>
    if faceClosest.2 < sqrMaxDist ∧ faceClosest.2 < inputClosest.2 then
      some faceClosest
    else some inputClosest

/-- Left fold of the closest point reduction over the face list, as done by
std::accumulate in processMesh (ClosestPointQuery.cpp, lines 352-355); a
thrown triangle or arity error stops the fold. -/
def processMeshAux (vertices : List Point) (queryPoint : Point)
    (sqrMaxDist : ℚ) :
    List Face → Option (Point × ℚ) → Except Err (Option (Point × ℚ))
  | [], acc => .ok acc
  | face :: rest, acc =>
    match computeClosestPointOnFace face vertices queryPoint with
    | .error err => .error err
    | .ok faceClosest =>
      processMeshAux vertices queryPoint sqrMaxDist rest
        (updateClosest sqrMaxDist acc faceClosest)

/-- Embedding of ClosestPointQuery::Impl::processMesh (ClosestPointQuery.cpp,
lines 339-356): reduce over all faces and return the point of the best
candidate; none models the all-NaN sentinel. -/
def processMesh (vertices : List Point) (faces : List Face)
    (queryPoint : Point) (sqrMaxDist : ℚ) : Except Err (Option Point) :=
  (processMeshAux vertices queryPoint sqrMaxDist faces none).map
    (Option.map Prod.fst)

/-- Heap order test b < result.second, where the initial result carries an
infinite squared distance, modelled by none. -/
def ltResultKey (key : ℚ) (result : Option (Point × ℚ)) : Bool :=
  match result with
  | none => true
  | some r => decide (key < r.2)

/-- Extraction of a minimal-key entry from the heap contents.  The C++
std::priority_queue pops some entry of minimal key; the embedding
deterministically takes the first such entry, which is one of the orders
the binary heap may realize. -/
def extractMin {β : Type} : List (β × ℚ) → Option ((β × ℚ) × List (β × ℚ))
  | [] => none
  | entry :: rest =>
    match extractMin rest with
    | none => some (entry, [])
    | some (m, others) =>
      if entry.2 ≤ m.2 then some (entry, rest) else some (m, entry :: others)

/-- Leaf element visit of the best first search (the lambda visitElement,
ClosestPointQuery.cpp lines 416-425), folded over the element list of a
leaf. -/
def visitElements (vertices : List Point) (queryPoint : Point)
    (sqrMaxDist : ℚ) :
    List OctreeElement → Option (Point × ℚ) → Except Err (Option (Point × ℚ))
  | [], result => .ok result
  | element :: rest, result =>
    match computeClosestPointOnFace element.1 vertices queryPoint with
    | .error err => .error err
    | .ok faceClosest =>
      visitElements vertices queryPoint sqrMaxDist rest
        (updateClosest sqrMaxDist result faceClosest)

/-- Main loop of the best first search (ClosestPointQuery.cpp, lines
446-464): while the heap has nodes and the top key beats the current
result, pop the top; visit the elements of a leaf, or push every child
whose bounds distance beats the current result.  The fuel argument makes
the loop structural; every iteration pops one node and pushes children of
strictly smaller total size, so a fuel beyond the total size of the initial
heap contents is never exhausted. -/
def bfsLoop (vertices : List Point) (queryPoint : Point) (sqrMaxDist : ℚ) :
    ℕ → List (OctreeNode OctreeElement × ℚ) → Option (Point × ℚ) →
    Except Err (Option (Point × ℚ))
  | 0, _, result => .ok result
  | fuel + 1, heap, result =>
    match extractMin heap with
    | none => .ok result
    | some ((node, key), rest) =>
      if ltResultKey key result then
        if node.isLeaf then
          match visitElements vertices queryPoint sqrMaxDist
              node.elements result with
          | .error err => .error err
          | .ok updated => bfsLoop vertices queryPoint sqrMaxDist fuel rest updated
        else
          let pushed := (List.range 8).foldl
            (fun h i =>
              match node.child i with
              | none => h
              | some childNode =>
                let nodeSqrDist :=
                  computeSqrDistanceToBounds queryPoint childNode.bounds
                if ltResultKey nodeSqrDist result then
                  h ++ [(childNode, nodeSqrDist)]
                else h) rest
          bfsLoop vertices queryPoint sqrMaxDist fuel pushed result
      else .ok result

/-- Embedding of ClosestPointQuery::Impl::processPartitionedSpace
(ClosestPointQuery.cpp, lines 394-467): seed the heap with the root and its
bounds distance, run the best first search, and return the point of the
final result. -/
def processPartitionedSpace (vertices : List Point)
    (tree : OctreeNode OctreeElement) (queryPoint : Point) (sqrMaxDist : ℚ)
    (fuel : ℕ) : Except Err (Option Point) :=
  (bfsLoop vertices queryPoint sqrMaxDist fuel
      [(tree, computeSqrDistanceToBounds queryPoint tree.bounds)]
      none).map (Option.map Prod.fst)

/-- Fuel that always suffices for the best first search: one more than the
size of the tree, since every loop iteration strictly decreases the total
size of the heap contents. -/
def bfsFuel (tree : OctreeNode OctreeElement) : ℕ := OctreeNode.treeSize tree + 1

/-- Embedding of ClosestPointQuery::operator() (ClosestPointQuery.cpp,
lines 315-320): dispatch on the presence of the partitioned space, passing
the squared maximum distance. -/
def queryCPQ (impl : Impl) (queryPoint : Point) (maxDist : ℚ) :
    Except Err (Option Point) :=
  match impl.m_partitionedSpace with
  | some tree =>
    processPartitionedSpace impl.m_vertices tree queryPoint
      (maxDist * maxDist) (bfsFuel tree)
  | none =>
    processMesh impl.m_vertices impl.m_faces queryPoint (maxDist * maxDist)

/-- Construction followed by one query, the usage pattern of the public
facade ClosestPointQuery. -/
def queryMesh (m : Mesh) (queryPoint : Point) (maxDist : ℚ) :
    Except Err (Option Point) :=
  match mkImpl m with
  | .error err => .error err
  | .ok impl => queryCPQ impl queryPoint maxDist

end cpom

namespace cpom

/-- Sign direction of a child index, one component per axis bit, matching
getChildBounds. -/
def cdir (i : ℕ) : Float3 :=
  ⟨if i &&& 1 ≠ 0 then 1 else -1,
   if i &&& 2 ≠ 0 then 1 else -1,
   if i &&& 4 ≠ 0 then 1 else -1⟩

/-- Internal octree node with no elements and no children. -/
def bareInternal (b : AABCube) : OctreeNode Float3 :=
  ⟨[], b, false, none, none, none, none, none, none, none, none⟩

/-- Internal octree node whose only child sits at slot k. -/
def singleChild (b : AABCube) (k : ℕ) (c : OctreeNode Float3) :
    OctreeNode Float3 :=
  (bareInternal b).setChild k (some c)

/-- Chain tree describing the octree below one root child during the
coincident point scenario: lv single-child levels ending in a leaf holding
m copies of the origin; the cube at each level has the origin at the corner
opposite to the sign direction of i, and each level halves the width. -/
def chainW (i : ℕ) (w : ℚ) : ℕ → ℕ → OctreeNode Float3
  | 0, m => ⟨List.replicate m ⟨0, 0, 0⟩, ⟨cdir i * w, w⟩, true,
             none, none, none, none, none, none, none, none⟩
  | lv + 1, m => singleChild ⟨cdir i * w, w⟩ (7 - i) (chainW i (w * (1 / 2)) lv m)

/-- Root of the coincident point scenario after its subdivision: an
internal root of half width 1/2 centered at the origin whose eight children
are chains of identical shape. -/
def rootWith (lv m : ℕ) : OctreeNode Float3 :=
  ⟨[], ⟨⟨0, 0, 0⟩, 1 / 2⟩, false,
   some (chainW 0 (1 / 4) lv m), some (chainW 1 (1 / 4) lv m),
   some (chainW 2 (1 / 4) lv m), some (chainW 3 (1 / 4) lv m),
   some (chainW 4 (1 / 4) lv m), some (chainW 5 (1 / 4) lv m),
   some (chainW 6 (1 / 4) lv m), some (chainW 7 (1 / 4) lv m)⟩

/-- Scenario of the octree unit test: repeated insertion of the origin into
a root of half width 1/2 centered at the origin, with maxDepth 100 and
maxFill 3, using the point in cube predicate. -/
def octTestPoint : Float3 := ⟨0, 0, 0⟩

/-- Tree of the coincident point scenario after n insertions. -/
def octTestTree (n : ℕ) : OctreeNode Float3 :=
  (List.replicate n octTestPoint).foldl
    (fun t p => t.insert pointInCube 100 3 102 p)
    (OctreeNode.leafNode ⟨⟨0, 0, 0⟩, 1 / 2⟩)

end cpom

namespace cpom

/-- Coefficient a = edge0 . edge0 of the triangle solver. -/
def triA (v0 v1 : Point) : ℚ := (v1 - v0).dot (v1 - v0)

/-- Coefficient b = edge0 . edge1 of the triangle solver. -/
def triB (v0 v1 v2 : Point) : ℚ := (v1 - v0).dot (v2 - v0)

/-- Coefficient c = edge1 . edge1 of the triangle solver. -/
def triC (v0 v2 : Point) : ℚ := (v2 - v0).dot (v2 - v0)

/-- Coefficient d = edge0 . (v0 - fromPoint) of the triangle solver. -/
def triD (v0 v1 q : Point) : ℚ := (v1 - v0).dot (v0 - q)

/-- Coefficient e = edge1 . (v0 - fromPoint) of the triangle solver. -/
def triE (v0 v2 q : Point) : ℚ := (v2 - v0).dot (v0 - q)

/-- Determinant det = a c - b b of the triangle solver. -/
def triDet (v0 v1 v2 : Point) : ℚ :=
  triA v0 v1 * triC v0 v2 - triB v0 v1 v2 * triB v0 v1 v2

/-- Unnormalized coordinate s1 = b e - c d of the triangle solver. -/
def triS1 (v0 v1 v2 q : Point) : ℚ :=
  triB v0 v1 v2 * triE v0 v2 q - triC v0 v2 * triD v0 v1 q

/-- Unnormalized coordinate t1 = b d - a e of the triangle solver. -/
def triT1 (v0 v1 v2 q : Point) : ℚ :=
  triB v0 v1 v2 * triD v0 v1 q - triA v0 v1 * triE v0 v2 q

/-- Clamp of a rational to the unit interval, as written in the spec. -/
def clamp01 (x : ℚ) : ℚ := if x < 0 then 0 else if 1 < x then 1 else x

/-- Region 2 parameter pair as claim C4 words it: for tmp1 ≤ tmp0 the
claim sets t = 0 when tmp1 ≤ 0.  This is the claim formula, written to be
compared with the source. -/
def region2Claimed (a b c d e : ℚ) : ℚ × ℚ :=
  let tmp0 := b + d
  let tmp1 := c + e
  if tmp1 > tmp0 then
    let s := clamp01 ((tmp1 - tmp0) / (a - 2 * b + c))
    (s, 1 - s)
  else
    (0, if tmp1 ≤ 0 then 0 else if e ≥ 0 then 0 else clamp01 (-e / c))

/-- Region 2 parameter pair as the source computes it, with the clamp
spelled through clamp01; the amended claim C4 sets t = 1 when tmp1 ≤ 0. -/
def region2Code (a b c d e : ℚ) : ℚ × ℚ :=
  let tmp0 := b + d
  let tmp1 := c + e
  if tmp1 > tmp0 then
    let s := clamp01 ((tmp1 - tmp0) / (a - 2 * b + c))
    (s, 1 - s)
  else
    (0, if tmp1 ≤ 0 then 1 else if e ≥ 0 then 0 else clamp01 (-e / c))

/-- Region 6 parameter pair as claim C3 words it: Region 2 with the roles
of s and t swapped, so the edge branch sets s = 1 - t.  This is the claim
formula, written to be compared with the source. -/
def region6Claimed (a b c d e : ℚ) : ℚ × ℚ :=
  let tmp0 := b + e
  let tmp1 := a + d
  if tmp1 > tmp0 then
    let t := clamp01 ((tmp1 - tmp0) / (a - 2 * b + c))
    (1 - t, t)
  else
    (if tmp1 ≤ 0 then 1 else if d ≥ 0 then 0 else -d / a, 0)

/-- Membership of a point in the closed triangle spanned by three vertices,
via the parameterization used by the solver. -/
def onTriangle (v0 v1 v2 p : Point) : Prop :=
  ∃ s t : ℚ, 0 ≤ s ∧ 0 ≤ t ∧ s + t ≤ 1 ∧
    p = v0 + (v1 - v0) * s + (v2 - v0) * t

/-- Collinearity of three points: one edge is a scalar multiple of the
other. -/
def collinearTriple (u v w : Point) : Prop :=
  ∃ k : ℚ, v - u = (w - u) * k ∨ w - u = (v - u) * k

/-- Containment of a point in a bounding cube, componentwise. -/
def insideCube (p : Point) (c : AABCube) : Prop :=
  |p.x - c.center.x| ≤ c.halfWidth ∧ |p.y - c.center.y| ≤ c.halfWidth ∧
    |p.z - c.center.z| ≤ c.halfWidth

/-- Division of rationals guarded by strict positivity of the divisor. -/
def chkDiv (x y : ℚ) : Option ℚ := if 0 < y then some (x / y) else none

/-- Twin of computeClosestPointOnTriangle in which every division the code
executes goes through chkDiv; it mirrors the branch structure of the source
function exactly, so it returns some value precisely when every executed
division has a strictly positive divisor. -/
def computeClosestPointOnTriangleChk (vertex0 vertex1 vertex2 fromPoint : Point) :
    Option (Point × ℚ) :=
  let edge0 := vertex1 - vertex0
  let edge1 := vertex2 - vertex0
  let v0 := vertex0 - fromPoint
  let a := edge0.dot edge0
  let b := edge0.dot edge1
  let c := edge1.dot edge1
  let d := edge0.dot v0
  let e := edge1.dot v0
  let det := a * c - b * b
  let s1 := b * e - c * d
  let t1 := b * d - a * e
  if det = 0 then none
  else
    let st : Option (ℚ × ℚ) :=
      if s1 + t1 ≤ det then
        if s1 < 0 then
          if t1 < 0 then
            if d < 0 then
              if -d ≥ a then some (1, 0)
              else do pure (← chkDiv (-d) a, 0)
            else
              if e ≥ 0 then some (0, 0)
              else if -e ≥ c then some (0, 1)
              else do pure (0, ← chkDiv (-e) c)
          else
            if e ≥ 0 then some (0, 0)
            else if -e ≥ c then some (0, 1)
            else do pure (0, ← chkDiv (-e) c)
        else if t1 < 0 then
          if d ≥ 0 then some (0, 0)
          else if -d ≥ a then some (1, 0)
          else do pure (← chkDiv (-d) a, 0)
        else do
          let invDet ← chkDiv 1 det
          pure (s1 * invDet, t1 * invDet)
      else
        if s1 < 0 then
          let tmp0 := b + d
          let tmp1 := c + e
          if tmp1 > tmp0 then
            let num := tmp1 - tmp0
            let denom := a - 2 * b + c
            if num ≥ denom then some (1, 0)
            else do
              let s2 ← chkDiv num denom
              pure (s2, 1 - s2)
          else
            if tmp1 ≤ 0 then some (0, 1)
            else if e ≥ 0 then some (0, 0)
            else do pure (0, ← chkDiv (-e) c)
        else if t1 < 0 then
          let tmp0 := b + e
          let tmp1 := a + d
          if tmp1 > tmp0 then
            let num := tmp1 - tmp0
            let denom := a - 2 * b + c
            if num ≥ denom then some (1 - s1, 1)
            else do
              let t2 ← chkDiv num denom
              pure (1 - s1, t2)
          else
            if tmp1 ≤ 0 then some (1, 0)
            else if d ≥ 0 then some (0, 0)
            else do pure (← chkDiv (-d) a, 0)
        else
          let num := c + e - b - d
          if num ≤ 0 then some (0, 1)
          else
            let denom := a - 2 * b + c
            if num ≥ denom then some (1, 0)
            else do
              let s2 ← chkDiv num denom
              pure (s2, 1 - s2)
    match st with
    | none => none
    | some st =>
      let closestPoint := vertex0 + edge0 * st.1 + edge1 * st.2
      some (closestPoint, (fromPoint - closestPoint).sqrLength)

/-- Single triangle mesh used to exhibit the Region 6 defect at the query
level (claim C1). -/
def c1Mesh : Mesh :=
  ⟨[⟨0, 0, 0⟩, ⟨1, 0, 0⟩, ⟨10, 1, 0⟩], [⟨[0, 1, 2]⟩]⟩

/-- Vertices of the five face mesh on which the linear and the indexed
paths disagree (claim C2): one Region 6 triangle in the low octants, two
small triangles near the query point, and two padding triangles pinning the
mesh extent to the cube from the origin to (8, 8, 0). -/
def divergenceVertices : List Point :=
  [⟨0, 27/20, 0⟩, ⟨2/5, 14/5, 0⟩, ⟨3/5, 7/2, 0⟩,
   ⟨1, 11/2, 0⟩, ⟨3/2, 11/2, 0⟩, ⟨1, 6, 0⟩,
   ⟨5/2, 13/2, 0⟩, ⟨3, 13/2, 0⟩, ⟨5/2, 7, 0⟩,
   ⟨15/2, 15/2, 0⟩, ⟨8, 15/2, 0⟩, ⟨8, 8, 0⟩,
   ⟨0, 0, 0⟩, ⟨1/2, 0, 0⟩, ⟨0, 1/2, 0⟩]

/-- Faces of the divergence mesh: five triangles, which keeps the mesh
under the indexing threshold yet lets both query paths be compared as
functions. -/
def divergenceFaces : List Face :=
  [⟨[0, 1, 2]⟩, ⟨[3, 4, 5]⟩, ⟨[6, 7, 8]⟩, ⟨[9, 10, 11]⟩, ⟨[12, 13, 14]⟩]

end cpom

set_option maxRecDepth 4000

namespace cpom

namespace Float3

@[simp] theorem add_def (u v : Float3) :
    u + v = ⟨u.x + v.x, u.y + v.y, u.z + v.z⟩ := rfl

@[simp] theorem sub_def (u v : Float3) :
    u - v = ⟨u.x - v.x, u.y - v.y, u.z - v.z⟩ := rfl

@[simp] theorem smul_def (u : Float3) (k : ℚ) :
    u * k = Float3.mk (u.x * k) (u.y * k) (u.z * k) := rfl


end Float3

namespace OctreeNode

variable {α : Type}

/-- One step unfolding of walkInsert at positive fuel, used to reason about
a single insertion without unfolding the recursive occurrences. -/
theorem walkInsert_succ (intersect : AABCube → α → Bool) (maxDepth : ℕ)
    (maxFill : ℚ) (fuel depth : ℕ) (node : OctreeNode α) (element : α) :
    walkInsert intersect maxDepth maxFill (fuel + 1) depth node element =
      if node.isLeaf then
        if (node.elements.length : ℚ) / (1 + (depth : ℚ)) > maxFill ∧
            depth < maxDepth then
          (node.elements.reverse ++ [element]).foldl
            (fun n e =>
              childrenInsert intersect
                (walkInsert intersect maxDepth maxFill fuel (depth + 1)) n e)
            node.subdivided
        else node.pushElem element
      else
        childrenInsert intersect
          (walkInsert intersect maxDepth maxFill fuel (depth + 1)) node element := rfl

end OctreeNode

end cpom

namespace cpom

theorem probe_false_x (c : AABCube) (h : c.halfWidth < |c.center.x|) :
    pointInCube c ⟨0, 0, 0⟩ = false := by
  simp only [pointInCube, Float3.abs, Float3.sub_def, decide_eq_false_iff_not]
  intro hh
  simp only [sub_zero] at hh
  exact absurd hh.1 (by linarith)

theorem probe_false_y (c : AABCube) (h : c.halfWidth < |c.center.y|) :
    pointInCube c ⟨0, 0, 0⟩ = false := by
  simp only [pointInCube, Float3.abs, Float3.sub_def, decide_eq_false_iff_not]
  intro hh
  simp only [sub_zero] at hh
  exact absurd hh.2.1 (by linarith)

theorem probe_false_z (c : AABCube) (h : c.halfWidth < |c.center.z|) :
    pointInCube c ⟨0, 0, 0⟩ = false := by
  simp only [pointInCube, Float3.abs, Float3.sub_def, decide_eq_false_iff_not]
  intro hh
  simp only [sub_zero] at hh
  exact absurd hh.2.2 (by linarith)

theorem probe_true (c : AABCube) (hx : |c.center.x| ≤ c.halfWidth)
    (hy : |c.center.y| ≤ c.halfWidth) (hz : |c.center.z| ≤ c.halfWidth) :
    pointInCube c ⟨0, 0, 0⟩ = true := by
  simp only [pointInCube, Float3.abs, Float3.sub_def, sub_zero,
    decide_eq_true_eq]
  exact ⟨hx, hy, hz⟩

end cpom

namespace cpom
namespace OctreeNode

variable {α : Type}

theorem range8 : List.range 8 = [0, 1, 2, 3, 4, 5, 6, 7] := rfl

theorem child_setChild_same (n : OctreeNode α) (k : ℕ) (v : Option (OctreeNode α))
    (hk : k < 8) : (n.setChild k v).child k = v := by
  obtain ⟨e, b, l, c0, c1, c2, c3, c4, c5, c6, c7⟩ := n
  interval_cases k <;> rfl

theorem child_setChild_ne (n : OctreeNode α) (k k' : ℕ) (v : Option (OctreeNode α))
    (hk : k < 8) (hk' : k' < 8) (hne : k' ≠ k) :
    (n.setChild k v).child k' = n.child k' := by
  obtain ⟨e, b, l, c0, c1, c2, c3, c4, c5, c6, c7⟩ := n
  interval_cases k <;> interval_cases k' <;> first | rfl | exact absurd rfl hne

theorem bounds_setChild (n : OctreeNode α) (k : ℕ) (v : Option (OctreeNode α))
    (hk : k < 8) : (n.setChild k v).bounds = n.bounds := by
  obtain ⟨e, b, l, c0, c1, c2, c3, c4, c5, c6, c7⟩ := n
  interval_cases k <;> rfl

theorem getChildBounds_setChild_ne (n : OctreeNode α) (k k' : ℕ)
    (v : Option (OctreeNode α)) (hk : k < 8) (hk' : k' < 8) (hne : k' ≠ k) :
    (n.setChild k v).getChildBounds k' = n.getChildBounds k' := by
  simp only [OctreeNode.getChildBounds, child_setChild_ne n k k' v hk hk' hne,
    bounds_setChild n k v hk]

/-- When the intersection test succeeds exactly at slot K, the child pass of
walkInsert updates that single slot, materializing the child on demand. -/
theorem childrenInsert_single (intersect : AABCube → α → Bool)
    (r : OctreeNode α → α → OctreeNode α) (n : OctreeNode α) (e : α) (K : ℕ)
    (hK : K < 8)
    (H : ∀ k, k < 8 → intersect (n.getChildBounds k) e = decide (k = K)) :
    childrenInsert intersect r n e =
      n.setChild K (some (r ((n.child K).getD (leafNode (n.getChildBounds K))) e)) := by
  have h0 := H 0 (by norm_num)
  have h1 := H 1 (by norm_num)
  have h2 := H 2 (by norm_num)
  have h3 := H 3 (by norm_num)
  have h4 := H 4 (by norm_num)
  have h5 := H 5 (by norm_num)
  have h6 := H 6 (by norm_num)
  have h7 := H 7 (by norm_num)
  have p : ∀ (j k : ℕ) (v : Option (OctreeNode α)), j < 8 → k < 8 → k ≠ j →
      (n.setChild j v).getChildBounds k = n.getChildBounds k :=
    fun j k v hj hk hne => getChildBounds_setChild_ne n j k v hj hk hne
  interval_cases K <;>
    simp [childrenInsert, range8, h0, h1, h2, h3, h4, h5, h6, h7, p]

end OctreeNode
end cpom

namespace cpom

open OctreeNode

theorem land0a : (0:ℕ) &&& 1 = 0 := rfl
theorem land0b : (0:ℕ) &&& 2 = 0 := rfl
theorem land0c : (0:ℕ) &&& 4 = 0 := rfl
theorem land1a : (1:ℕ) &&& 1 = 1 := rfl
theorem land1b : (1:ℕ) &&& 2 = 0 := rfl
theorem land1c : (1:ℕ) &&& 4 = 0 := rfl
theorem land2a : (2:ℕ) &&& 1 = 0 := rfl
theorem land2b : (2:ℕ) &&& 2 = 2 := rfl
theorem land2c : (2:ℕ) &&& 4 = 0 := rfl
theorem land3a : (3:ℕ) &&& 1 = 1 := rfl
theorem land3b : (3:ℕ) &&& 2 = 2 := rfl
theorem land3c : (3:ℕ) &&& 4 = 0 := rfl
theorem land4a : (4:ℕ) &&& 1 = 0 := rfl
theorem land4b : (4:ℕ) &&& 2 = 0 := rfl
theorem land4c : (4:ℕ) &&& 4 = 4 := rfl
theorem land5a : (5:ℕ) &&& 1 = 1 := rfl
theorem land5b : (5:ℕ) &&& 2 = 0 := rfl
theorem land5c : (5:ℕ) &&& 4 = 4 := rfl
theorem land6a : (6:ℕ) &&& 1 = 0 := rfl
theorem land6b : (6:ℕ) &&& 2 = 2 := rfl
theorem land6c : (6:ℕ) &&& 4 = 4 := rfl
theorem land7a : (7:ℕ) &&& 1 = 1 := rfl
theorem land7b : (7:ℕ) &&& 2 = 2 := rfl
theorem land7c : (7:ℕ) &&& 4 = 4 := rfl

theorem chainW_bounds (i : ℕ) (w : ℚ) (lv m : ℕ) :
    (chainW i w lv m).bounds = ⟨cdir i * w, w⟩ := by
  cases lv with
  | zero => rfl
  | succ lv =>
    show ((bareInternal ⟨cdir i * w, w⟩).setChild (7 - i) _).bounds = _
    rw [bounds_setChild _ _ _ (by omega)]
    rfl

set_option maxHeartbeats 1600000 in
theorem probeA (i k : ℕ) (w : ℚ) (hi : i < 8) (hk : k < 8) (hw : 0 < w) :
    pointInCube
      ((bareInternal (⟨cdir i * w, w⟩ : AABCube) : OctreeNode Float3).getChildBounds k)
      ⟨0, 0, 0⟩ = decide (k = 7 - i) := by
  interval_cases i <;> interval_cases k <;>
    simp only [OctreeNode.getChildBounds, OctreeNode.child, OctreeNode.bounds,
      bareInternal, cdir, Float3.smul_def, land0a, land0b, land0c, land1a, land1b, land1c, land2a, land2b, land2c, land3a, land3b, land3c, land4a, land4b, land4c, land5a, land5b, land5c, land6a, land6b, land6c, land7a, land7b, land7c] <;>
    norm_num <;>
    first
      | (apply probe_false_x; rw [lt_abs]; first | (left; linarith) | (right; linarith))
      | (apply probe_false_y; rw [lt_abs]; first | (left; linarith) | (right; linarith))
      | (apply probe_false_z; rw [lt_abs]; first | (left; linarith) | (right; linarith))
      | (apply probe_true <;> (rw [abs_le]; constructor <;> linarith))

theorem probeB (i k : ℕ) (w : ℚ) (C : OctreeNode Float3) (hi : i < 8) (hk : k < 8)
    (hw : 0 < w) (hC : C.bounds = ⟨cdir i * (w * (1 / 2)), w * (1 / 2)⟩) :
    pointInCube ((singleChild ⟨cdir i * w, w⟩ (7 - i) C).getChildBounds k)
      ⟨0, 0, 0⟩ = decide (k = 7 - i) := by
  by_cases hk7 : k = 7 - i
  · subst hk7
    have hc : (singleChild (⟨cdir i * w, w⟩ : AABCube) (7 - i) C).child (7 - i) = some C :=
      child_setChild_same _ _ _ (by omega)
    simp only [OctreeNode.getChildBounds, hc, hC]
    interval_cases i <;> simp only [cdir, Float3.smul_def, land0a, land0b, land0c, land1a, land1b, land1c, land2a, land2b, land2c, land3a, land3b, land3c, land4a, land4b, land4c, land5a, land5b, land5c, land6a, land6b, land6c, land7a, land7b, land7c] <;> norm_num <;>
      (apply probe_true <;> (rw [abs_le]; constructor <;> linarith))
  · simp only [singleChild]
    rw [getChildBounds_setChild_ne _ _ _ _ (by omega) hk hk7]
    rw [probeA i k w hi hk hw]

end cpom

namespace cpom
namespace OctreeNode

variable {α : Type}

theorem setChild_setChild_same (n : OctreeNode α) (k : ℕ)
    (v v' : Option (OctreeNode α)) (hk : k < 8) :
    (n.setChild k v).setChild k v' = n.setChild k v' := by
  obtain ⟨e, b, l, c0, c1, c2, c3, c4, c5, c6, c7⟩ := n
  interval_cases k <;> rfl

theorem isLeaf_setChild (n : OctreeNode α) (k : ℕ) (v : Option (OctreeNode α))
    (hk : k < 8) : (n.setChild k v).isLeaf = n.isLeaf := by
  obtain ⟨e, b, l, c0, c1, c2, c3, c4, c5, c6, c7⟩ := n
  interval_cases k <;> rfl

/-- The child pass updates every slot when every child is present and every
intersection test succeeds, as happens at the octree root of the coincident
point scenario. -/
theorem childrenInsert_eight (intersect : AABCube → α → Bool)
    (r : OctreeNode α → α → OctreeNode α) (el : List α) (b : AABCube)
    (lf : Bool) (c0 c1 c2 c3 c4 c5 c6 c7 : OctreeNode α) (e : α)
    (H0 : intersect c0.bounds e = true) (H1 : intersect c1.bounds e = true)
    (H2 : intersect c2.bounds e = true) (H3 : intersect c3.bounds e = true)
    (H4 : intersect c4.bounds e = true) (H5 : intersect c5.bounds e = true)
    (H6 : intersect c6.bounds e = true) (H7 : intersect c7.bounds e = true) :
    childrenInsert intersect r
      ⟨el, b, lf, some c0, some c1, some c2, some c3,
        some c4, some c5, some c6, some c7⟩ e =
    ⟨el, b, lf, some (r c0 e), some (r c1 e), some (r c2 e), some (r c3 e),
      some (r c4 e), some (r c5 e), some (r c6 e), some (r c7 e)⟩ := by
  simp [childrenInsert, range8, OctreeNode.getChildBounds, OctreeNode.child,
    OctreeNode.setChild, H0, H1, H2, H3, H4, H5, H6, H7]

end OctreeNode

open OctreeNode

/-- The computed bounds of the origin side child slot of a corner cube. -/
theorem getChildBounds_corner (i : ℕ) (w : ℚ) (hi : i < 8) :
    (bareInternal (⟨cdir i * w, w⟩ : AABCube) : OctreeNode Float3).getChildBounds (7 - i) =
      ⟨cdir i * (w * (1 / 2)), w * (1 / 2)⟩ := by
  interval_cases i <;>
    simp only [OctreeNode.getChildBounds, OctreeNode.child, OctreeNode.bounds,
      bareInternal, cdir, Float3.smul_def, land0a, land0b, land0c, land1a,
      land1b, land1c, land2a, land2b, land2c, land3a, land3b, land3c, land4a,
      land4b, land4c, land5a, land5b, land5c, land6a, land6b, land6c, land7a,
      land7b, land7c] <;>
    norm_num [land0a, land0b, land0c, land1a, land1b, land1c, land2a, land2b, land2c, land3a, land3b, land3c, land4a, land4b, land4c, land5a, land5b, land5c, land6a, land6b, land6c, land7a, land7b, land7c, AABCube.mk.injEq, Float3.mk.injEq] <;> ring_nf <;> try trivial

/-- Appending the origin to a chain leaf whose fill does not yet warrant a
subdivision. -/
theorem walkInsert_append (g d i m : ℕ) (w : ℚ)
    (hcond : ¬((m : ℚ) / (1 + (d : ℚ)) > 3 ∧ d < 100)) :
    OctreeNode.walkInsert pointInCube 100 3 (g + 1) d (chainW i w 0 m) ⟨0, 0, 0⟩ =
      chainW i w 0 (m + 1) := by
  show OctreeNode.walkInsert pointInCube 100 3 (g + 1) d
      ⟨List.replicate m ⟨0, 0, 0⟩, ⟨cdir i * w, w⟩, true, none, none, none,
        none, none, none, none, none⟩ ⟨0, 0, 0⟩ = _
  rw [OctreeNode.walkInsert_succ]
  simp only [OctreeNode.isLeaf, OctreeNode.elements, List.length_replicate,
    if_true]
  rw [if_neg hcond]
  show OctreeNode.pushElem _ _ = _
  simp only [OctreeNode.pushElem, chainW]
  rw [← List.replicate_succ' m]

end cpom

namespace cpom

open OctreeNode

theorem child_bareInternal (b : AABCube) (k : ℕ) :
    (bareInternal b : OctreeNode Float3).child k = none := by
  unfold bareInternal OctreeNode.child
  rcases k with _|_|_|_|_|_|_|_|k <;> rfl

/-- First refill insertion into a freshly subdivided chain node: the origin
side child is materialized as a leaf holding one point. -/
theorem refill_first (g d i : ℕ) (w : ℚ) (hi : i < 8) (hw : 0 < w) :
    childrenInsert pointInCube
      (OctreeNode.walkInsert pointInCube 100 3 (g + 1) (d + 1))
      (bareInternal ⟨cdir i * w, w⟩) ⟨0, 0, 0⟩ =
    singleChild ⟨cdir i * w, w⟩ (7 - i) (chainW i (w * (1 / 2)) 0 1) := by
  rw [childrenInsert_single _ _ _ _ (7 - i) (by omega)
    (fun k hk => probeA i k w hi hk hw)]
  rw [child_bareInternal, getChildBounds_corner i w hi]
  show singleChild _ _ (OctreeNode.walkInsert pointInCube 100 3 (g + 1) (d + 1)
    (chainW i (w * (1 / 2)) 0 0) ⟨0, 0, 0⟩) = _
  rw [walkInsert_append g (d + 1) i 0 (w * (1 / 2))
    (by rintro ⟨h3, _⟩; norm_num at h3)]

/-- Later refill insertions into a subdivided chain node: the origin lands
in the existing origin side child, which absorbs it without further
subdivision while its fill stays within bounds. -/
theorem refill_step (g d i c : ℕ) (w : ℚ) (hi : i < 8) (hw : 0 < w)
    (hc : ¬((c : ℚ) / (1 + ((d + 1 : ℕ) : ℚ)) > 3 ∧ d + 1 < 100)) :
    childrenInsert pointInCube
      (OctreeNode.walkInsert pointInCube 100 3 (g + 1) (d + 1))
      (singleChild ⟨cdir i * w, w⟩ (7 - i) (chainW i (w * (1 / 2)) 0 c))
      ⟨0, 0, 0⟩ =
    singleChild ⟨cdir i * w, w⟩ (7 - i) (chainW i (w * (1 / 2)) 0 (c + 1)) := by
  rw [childrenInsert_single _ _ _ _ (7 - i) (by omega)
    (fun k hk => probeB i k w _ hi hk hw (chainW_bounds i (w * (1 / 2)) 0 c))]
  rw [singleChild, setChild_setChild_same _ _ _ _ (by omega)]
  rw [child_setChild_same _ _ _ (by omega)]
  show (bareInternal _).setChild _ (some (OctreeNode.walkInsert pointInCube 100 3
    (g + 1) (d + 1) (chainW i (w * (1 / 2)) 0 c) ⟨0, 0, 0⟩)) = _
  rw [walkInsert_append g (d + 1) i c (w * (1 / 2)) hc]
  rfl

/-- Folding k refill insertions into a freshly subdivided chain node yields
the origin side child with k points. -/
theorem refill_fold (g d i : ℕ) (w : ℚ) (hi : i < 8) (hw : 0 < w) :
    ∀ k : ℕ,
      (∀ c : ℕ, c ≤ k → ¬((c : ℚ) / (1 + ((d + 1 : ℕ) : ℚ)) > 3 ∧ d + 1 < 100)) →
      (List.replicate (k + 1) (⟨0, 0, 0⟩ : Float3)).foldl
        (fun n e => childrenInsert pointInCube
          (OctreeNode.walkInsert pointInCube 100 3 (g + 1) (d + 1)) n e)
        (bareInternal ⟨cdir i * w, w⟩) =
      singleChild ⟨cdir i * w, w⟩ (7 - i) (chainW i (w * (1 / 2)) 0 (k + 1)) := by
  intro k
  induction k with
  | zero =>
    intro _
    rw [List.replicate_one, List.foldl_cons, List.foldl_nil,
      refill_first g d i w hi hw]
  | succ k ih =>
    intro hfill
    rw [List.replicate_succ' (k + 1), List.foldl_append,
      ih (fun c hck => hfill c (by omega)), List.foldl_cons, List.foldl_nil,
      refill_step g d i (k + 1) w hi hw (hfill (k + 1) (by omega))]

end cpom

namespace cpom

open OctreeNode

/-- Inserting the origin into a chain leaf whose fill warrants subdivision
grows the chain by one level; the re-inserted points all land in the origin
side child. -/
theorem subdivStep (g d i m : ℕ) (w : ℚ) (hi : i < 8) (hw : 0 < w)
    (hcond : (m : ℚ) / (1 + (d : ℚ)) > 3 ∧ d < 100)
    (hfill : ∀ c : ℕ, c ≤ m →
      ¬((c : ℚ) / (1 + ((d + 1 : ℕ) : ℚ)) > 3 ∧ d + 1 < 100)) :
    OctreeNode.walkInsert pointInCube 100 3 (g + 2) d (chainW i w 0 m) ⟨0, 0, 0⟩ =
      chainW i w 1 (m + 1) := by
  show OctreeNode.walkInsert pointInCube 100 3 (g + 2) d
      ⟨List.replicate m ⟨0, 0, 0⟩, ⟨cdir i * w, w⟩, true, none, none, none,
        none, none, none, none, none⟩ ⟨0, 0, 0⟩ = _
  rw [show (g + 2) = (g + 1) + 1 from rfl, OctreeNode.walkInsert_succ]
  simp only [OctreeNode.isLeaf, OctreeNode.elements, List.length_replicate,
    if_true]
  rw [if_pos hcond, List.reverse_replicate, ← List.replicate_succ' m]
  rw [show OctreeNode.subdivided
      (⟨List.replicate m ⟨0, 0, 0⟩, ⟨cdir i * w, w⟩, true, none, none, none,
        none, none, none, none, none⟩ : OctreeNode Float3) =
      bareInternal ⟨cdir i * w, w⟩ from rfl]
  rw [refill_fold g d i w hi hw m hfill]
  rfl

/-- Inserting the origin into an internal chain node passes it to the
single origin side child. -/
theorem descStep (g d i lv m : ℕ) (w : ℚ) (hi : i < 8) (hw : 0 < w) :
    OctreeNode.walkInsert pointInCube 100 3 (g + 1) d (chainW i w (lv + 1) m) ⟨0, 0, 0⟩ =
      singleChild ⟨cdir i * w, w⟩ (7 - i)
        (OctreeNode.walkInsert pointInCube 100 3 g (d + 1)
          (chainW i (w * (1 / 2)) lv m) ⟨0, 0, 0⟩) := by
  rw [show chainW i w (lv + 1) m =
    singleChild ⟨cdir i * w, w⟩ (7 - i) (chainW i (w * (1 / 2)) lv m) from rfl]
  have hleaf : (singleChild (⟨cdir i * w, w⟩ : AABCube) (7 - i)
      (chainW i (w * (1 / 2)) lv m)).isLeaf = false := by
    rw [singleChild, isLeaf_setChild _ _ _ (by omega)]
    rfl
  rw [OctreeNode.walkInsert_succ]
  simp only [hleaf, Bool.false_eq_true, if_false]
  rw [childrenInsert_single _ _ _ _ (7 - i) (by omega)
    (fun k hk => probeB i k w _ hi hk hw (chainW_bounds i (w * (1 / 2)) lv m))]
  rw [singleChild, setChild_setChild_same _ _ _ _ (by omega),
    child_setChild_same _ _ _ (by omega)]
  rfl

end cpom

namespace cpom

open OctreeNode

/-- Inserting the origin into a chain either appends to its leaf or grows
the chain by one level, depending on the depth fill test at the leaf. -/
theorem chainInsert : ∀ (lv g d m i : ℕ) (w : ℚ), i < 8 → 0 < w → lv ≤ g →
    (m : ℚ) ≤ 3 * ((d : ℚ) + (lv : ℚ) + 2) →
    OctreeNode.walkInsert pointInCube 100 3 (g + 2) d (chainW i w lv m) ⟨0, 0, 0⟩ =
      if (m : ℚ) / (1 + ((d + lv : ℕ) : ℚ)) > 3 ∧ d + lv < 100
      then chainW i w (lv + 1) (m + 1) else chainW i w lv (m + 1) := by
  intro lv
  induction lv with
  | zero =>
    intro g d m i w hi hw _ hfill
    by_cases hc : (m : ℚ) / (1 + ((d + 0 : ℕ) : ℚ)) > 3 ∧ d + 0 < 100
    · rw [if_pos hc]
      have hc' : (m : ℚ) / (1 + (d : ℚ)) > 3 ∧ d < 100 := by
        simpa using hc
      refine subdivStep g d i m w hi hw hc' ?_
      intro c hcm
      rintro ⟨h3, _⟩
      rw [gt_iff_lt, lt_div_iff (by positivity)] at h3
      have hcm' : (c : ℚ) ≤ (m : ℚ) := by exact_mod_cast hcm
      push_cast at h3 hfill
      linarith
    · rw [if_neg hc]
      exact walkInsert_append (g + 1) d i m w (by simpa using hc)
  | succ lv ih =>
    intro g d m i w hi hw hg hfill
    obtain ⟨g', rfl⟩ : ∃ g', g = g' + 1 := ⟨g - 1, by omega⟩
    rw [show g' + 1 + 2 = (g' + 2) + 1 from rfl]
    rw [descStep (g' + 2) d i lv m w hi hw]
    rw [ih g' (d + 1) m i (w * (1 / 2)) hi (by positivity) (by omega)
      (by push_cast at hfill ⊢; linarith)]
    have hdd : d + 1 + lv = d + (lv + 1) := by omega
    rw [hdd]
    split_ifs <;> rfl

/-- One insertion of the origin at the subdivided root: every child chain
receives the point and evolves in the same way. -/
theorem rootStep (g lv m : ℕ) (hg : lv ≤ g)
    (hfill : (m : ℚ) ≤ 3 * ((1 : ℚ) + (lv : ℚ) + 2)) :
    OctreeNode.walkInsert pointInCube 100 3 (g + 3) 0 (rootWith lv m) ⟨0, 0, 0⟩ =
      if (m : ℚ) / (1 + ((1 + lv : ℕ) : ℚ)) > 3 ∧ 1 + lv < 100
      then rootWith (lv + 1) (m + 1) else rootWith lv (m + 1) := by
  rw [show g + 3 = (g + 2) + 1 from rfl, OctreeNode.walkInsert_succ]
  rw [show (rootWith lv m).isLeaf = false from rfl]
  simp only [Bool.false_eq_true, if_false]
  show OctreeNode.childrenInsert pointInCube _
    (⟨[], ⟨⟨0, 0, 0⟩, 1 / 2⟩, false,
      some (chainW 0 (1 / 4) lv m), some (chainW 1 (1 / 4) lv m),
      some (chainW 2 (1 / 4) lv m), some (chainW 3 (1 / 4) lv m),
      some (chainW 4 (1 / 4) lv m), some (chainW 5 (1 / 4) lv m),
      some (chainW 6 (1 / 4) lv m), some (chainW 7 (1 / 4) lv m)⟩ :
        OctreeNode Float3) ⟨0, 0, 0⟩ = _
  rw [childrenInsert_eight pointInCube _ _ _ _ _ _ _ _ _ _ _ _ _
    (by rw [chainW_bounds]; decide) (by rw [chainW_bounds]; decide)
    (by rw [chainW_bounds]; decide) (by rw [chainW_bounds]; decide)
    (by rw [chainW_bounds]; decide) (by rw [chainW_bounds]; decide)
    (by rw [chainW_bounds]; decide) (by rw [chainW_bounds]; decide)]
  rw [chainInsert lv g 1 m 0 (1 / 4) (by norm_num) (by norm_num) hg (by push_cast; push_cast at hfill; linarith),
    chainInsert lv g 1 m 1 (1 / 4) (by norm_num) (by norm_num) hg (by push_cast; push_cast at hfill; linarith),
    chainInsert lv g 1 m 2 (1 / 4) (by norm_num) (by norm_num) hg (by push_cast; push_cast at hfill; linarith),
    chainInsert lv g 1 m 3 (1 / 4) (by norm_num) (by norm_num) hg (by push_cast; push_cast at hfill; linarith),
    chainInsert lv g 1 m 4 (1 / 4) (by norm_num) (by norm_num) hg (by push_cast; push_cast at hfill; linarith),
    chainInsert lv g 1 m 5 (1 / 4) (by norm_num) (by norm_num) hg (by push_cast; push_cast at hfill; linarith),
    chainInsert lv g 1 m 6 (1 / 4) (by norm_num) (by norm_num) hg (by push_cast; push_cast at hfill; linarith),
    chainInsert lv g 1 m 7 (1 / 4) (by norm_num) (by norm_num) hg (by push_cast; push_cast at hfill; linarith)]
  split_ifs <;> rfl

end cpom

namespace cpom

open OctreeNode

theorem octTestTree_succ (n : ℕ) :
    octTestTree (n + 1) =
      (octTestTree n).insert pointInCube 100 3 102 octTestPoint := by
  unfold octTestTree
  rw [List.replicate_succ' n, List.foldl_append, List.foldl_cons, List.foldl_nil]

theorem octTestTree_five : octTestTree 5 = rootWith 0 5 := by rfl

theorem octTestTree_twenty : octTestTree 20 = rootWith 5 20 := by
  have h5 := octTestTree_five
  have h6 : octTestTree 6 = rootWith 0 6 := by
    rw [octTestTree_succ, h5]
    simp only [OctreeNode.insert, octTestPoint]
    rw [show (102 : ℕ) = 99 + 3 from rfl,
      rootStep 99 0 5 (by omega) (by norm_num), if_neg (by norm_num)]
  have h7 : octTestTree 7 = rootWith 0 7 := by
    rw [octTestTree_succ, h6]
    simp only [OctreeNode.insert, octTestPoint]
    rw [show (102 : ℕ) = 99 + 3 from rfl,
      rootStep 99 0 6 (by omega) (by norm_num), if_neg (by norm_num)]
  have h8 : octTestTree 8 = rootWith 1 8 := by
    rw [octTestTree_succ, h7]
    simp only [OctreeNode.insert, octTestPoint]
    rw [show (102 : ℕ) = 99 + 3 from rfl,
      rootStep 99 0 7 (by omega) (by norm_num), if_pos (by norm_num)]
  have h9 : octTestTree 9 = rootWith 1 9 := by
    rw [octTestTree_succ, h8]
    simp only [OctreeNode.insert, octTestPoint]
    rw [show (102 : ℕ) = 99 + 3 from rfl,
      rootStep 99 1 8 (by omega) (by norm_num), if_neg (by norm_num)]
  have h10 : octTestTree 10 = rootWith 1 10 := by
    rw [octTestTree_succ, h9]
    simp only [OctreeNode.insert, octTestPoint]
    rw [show (102 : ℕ) = 99 + 3 from rfl,
      rootStep 99 1 9 (by omega) (by norm_num), if_neg (by norm_num)]
  have h11 : octTestTree 11 = rootWith 2 11 := by
    rw [octTestTree_succ, h10]
    simp only [OctreeNode.insert, octTestPoint]
    rw [show (102 : ℕ) = 99 + 3 from rfl,
      rootStep 99 1 10 (by omega) (by norm_num), if_pos (by norm_num)]
  have h12 : octTestTree 12 = rootWith 2 12 := by
    rw [octTestTree_succ, h11]
    simp only [OctreeNode.insert, octTestPoint]
    rw [show (102 : ℕ) = 99 + 3 from rfl,
      rootStep 99 2 11 (by omega) (by norm_num), if_neg (by norm_num)]
  have h13 : octTestTree 13 = rootWith 2 13 := by
    rw [octTestTree_succ, h12]
    simp only [OctreeNode.insert, octTestPoint]
    rw [show (102 : ℕ) = 99 + 3 from rfl,
      rootStep 99 2 12 (by omega) (by norm_num), if_neg (by norm_num)]
  have h14 : octTestTree 14 = rootWith 3 14 := by
    rw [octTestTree_succ, h13]
    simp only [OctreeNode.insert, octTestPoint]
    rw [show (102 : ℕ) = 99 + 3 from rfl,
      rootStep 99 2 13 (by omega) (by norm_num), if_pos (by norm_num)]
  have h15 : octTestTree 15 = rootWith 3 15 := by
    rw [octTestTree_succ, h14]
    simp only [OctreeNode.insert, octTestPoint]
    rw [show (102 : ℕ) = 99 + 3 from rfl,
      rootStep 99 3 14 (by omega) (by norm_num), if_neg (by norm_num)]
  have h16 : octTestTree 16 = rootWith 3 16 := by
    rw [octTestTree_succ, h15]
    simp only [OctreeNode.insert, octTestPoint]
    rw [show (102 : ℕ) = 99 + 3 from rfl,
      rootStep 99 3 15 (by omega) (by norm_num), if_neg (by norm_num)]
  have h17 : octTestTree 17 = rootWith 4 17 := by
    rw [octTestTree_succ, h16]
    simp only [OctreeNode.insert, octTestPoint]
    rw [show (102 : ℕ) = 99 + 3 from rfl,
      rootStep 99 3 16 (by omega) (by norm_num), if_pos (by norm_num)]
  have h18 : octTestTree 18 = rootWith 4 18 := by
    rw [octTestTree_succ, h17]
    simp only [OctreeNode.insert, octTestPoint]
    rw [show (102 : ℕ) = 99 + 3 from rfl,
      rootStep 99 4 17 (by omega) (by norm_num), if_neg (by norm_num)]
  have h19 : octTestTree 19 = rootWith 4 19 := by
    rw [octTestTree_succ, h18]
    simp only [OctreeNode.insert, octTestPoint]
    rw [show (102 : ℕ) = 99 + 3 from rfl,
      rootStep 99 4 18 (by omega) (by norm_num), if_neg (by norm_num)]
  have h20 : octTestTree 20 = rootWith 5 20 := by
    rw [octTestTree_succ, h19]
    simp only [OctreeNode.insert, octTestPoint]
    rw [show (102 : ℕ) = 99 + 3 from rfl,
      rootStep 99 4 19 (by omega) (by norm_num), if_pos (by norm_num)]
  exact h20

theorem leafStats_chainW (i : ℕ) (hi : i < 8) :
    ∀ (lv : ℕ) (w : ℚ) (m d : ℕ),
      OctreeNode.leafStats (chainW i w lv m) d = [(d + lv, m)] := by
  intro lv
  induction lv with
  | zero =>
    intro w m d
    simp [chainW, OctreeNode.leafStats]
  | succ lv ih =>
    intro w m d
    have hstep : OctreeNode.leafStats (chainW i w (lv + 1) m) d =
        OctreeNode.leafStats (chainW i (w * (1 / 2)) lv m) (d + 1) := by
      interval_cases i <;>
        simp [chainW, singleChild, bareInternal, OctreeNode.setChild,
          OctreeNode.leafStats, OctreeNode.childStats]
    rw [hstep, ih (w * (1 / 2)) m (d + 1)]
    have hd : d + 1 + lv = d + (lv + 1) := by omega
    rw [hd]

theorem leafStats_rootWith (lv m : ℕ) :
    OctreeNode.leafStats (rootWith lv m) 0 =
      List.replicate 8 (1 + lv, m) := by
  show OctreeNode.leafStats
    (⟨[], ⟨⟨0, 0, 0⟩, 1 / 2⟩, false, _, _, _, _, _, _, _, _⟩ :
      OctreeNode Float3) 0 = _
  simp only [OctreeNode.leafStats, OctreeNode.childStats,
    leafStats_chainW 0 (by norm_num), leafStats_chainW 1 (by norm_num),
    leafStats_chainW 2 (by norm_num), leafStats_chainW 3 (by norm_num),
    leafStats_chainW 4 (by norm_num), leafStats_chainW 5 (by norm_num),
    leafStats_chainW 6 (by norm_num), leafStats_chainW 7 (by norm_num)]
  norm_num [List.replicate]

end cpom

namespace cpom

set_option maxRecDepth 4000

/-- Claim C8: inserting 20 points at the origin into an octree whose root
cube is centered at the origin with halfWidth 1/2, with the pointInCube
intersection predicate, maxDepth 100 and maxFill 3, yields a tree whose
deepest leaf is at depth 6, whose fullest leaf holds all 20 points, and
growth halts because 20 / (1 + 6) ≤ 3. -/
theorem claim_C8 :
    ((OctreeNode.leafStats (octTestTree 20) 0).map Prod.fst).foldl Nat.max 0 = 6 ∧
    ((OctreeNode.leafStats (octTestTree 20) 0).map Prod.snd).foldl Nat.max 0 = 20 ∧
    (∃ st ∈ OctreeNode.leafStats (octTestTree 20) 0, st.1 = 6 ∧ st.2 = 20) ∧
    (20 : ℚ) / (1 + 6) ≤ 3 := by
  rw [octTestTree_twenty, leafStats_rootWith]
  refine ⟨by decide, by decide, ⟨(6, 20), by decide, rfl, rfl⟩, by norm_num⟩

/-- Claim C10: a mesh with at least one vertex and no faces is accepted by
the constructor, no index is built, and every query returns the sentinel
(modelled by none) without an error. -/
theorem claim_C10 (verts : List Point) (hv : verts ≠ []) (q : Point) (r : ℚ) :
    ∃ impl, mkImpl ⟨verts, []⟩ = .ok impl ∧ queryCPQ impl q r = .ok none := by
  have hne : verts.isEmpty = false := by simp [List.isEmpty_iff, hv]
  refine ⟨⟨verts, [], none⟩, ?_, rfl⟩
  simp [mkImpl, hne, minSpacePartitioningFaces]

theorem claim_C10_witness :
    ∃ impl, mkImpl ⟨[⟨0, 0, 0⟩], []⟩ = .ok impl ∧
      queryCPQ impl ⟨1, 2, 3⟩ 5 = .ok none :=
  claim_C10 [⟨0, 0, 0⟩] (by simp) ⟨1, 2, 3⟩ 5

/-- Claim C1: the query on the single triangle mesh c1Mesh with radius 2
returns the sentinel although the mesh point (1, 0, 0) lies on the triangle
at squared distance 26/25 ≤ 2 * 2 from the query point, so a mesh point
within the radius exists and the sentinel is still returned. -/
theorem claim_C1 :
    queryMesh c1Mesh ⟨6/5, -1, 0⟩ 2 = .ok none ∧
    onTriangle ⟨0, 0, 0⟩ ⟨1, 0, 0⟩ ⟨10, 1, 0⟩ ⟨1, 0, 0⟩ ∧
    ((⟨6/5, -1, 0⟩ : Point) - ⟨1, 0, 0⟩).sqrLength ≤ 2 * 2 :=
  ⟨by decide, ⟨1, 0, by norm_num, by norm_num, by norm_num, by decide⟩, by decide⟩

/-- Claim C2: on the five face divergence mesh (below the 32 face indexing
threshold) with query point (1, 5, 0) and squared radius 100, the linear
scan path and the best first indexed path return different points, whose
squared distances to the query point differ by about a quarter. -/
theorem claim_C2 :
    divergenceFaces.length < minSpacePartitioningFaces ∧
    processMesh divergenceVertices divergenceFaces ⟨1, 5, 0⟩ 100 =
      .ok (some ⟨6249/6250, 247471/50000, 0⟩) ∧
    processPartitionedSpace divergenceVertices
        (partitionSpace divergenceVertices divergenceFaces) ⟨1, 5, 0⟩ 100
        (bfsFuel (partitionSpace divergenceVertices divergenceFaces)) =
      .ok (some ⟨1, 11/2, 0⟩) ∧
    ((⟨1, 5, 0⟩ : Point) - ⟨6249/6250, 247471/50000, 0⟩).sqrLength <
      ((⟨1, 5, 0⟩ : Point) - ⟨1, 11/2, 0⟩).sqrLength :=
  ⟨by decide, by decide, by decide, by decide⟩

/-- Componentwise bound behind the pruning lemma: the clamped axis gap is
at most the axis distance to any point within halfWidth of the center. -/
theorem axisBound (a c t h : ℚ) (ht : |t - c| ≤ h) :
    max (|a - c| - h) 0 * max (|a - c| - h) 0 ≤ (a - t) * (a - t) := by
  have h1 : |a - c| ≤ |a - t| + h := by
    have := abs_sub_le a t c
    linarith
  have h2 : max (|a - c| - h) 0 ≤ |a - t| :=
    max_le (by linarith) (abs_nonneg _)
  calc max (|a - c| - h) 0 * max (|a - c| - h) 0 ≤ |a - t| * |a - t| :=
        mul_self_le_mul_self (le_max_right _ 0) h2
    _ = (a - t) * (a - t) := abs_mul_abs_self _

/-- Claim C5: computeSqrDistanceToBounds is a lower bound on the squared
distance from the query point to every point inside the cube, and it
vanishes when the query point itself is inside the cube. -/
theorem claim_C5 (q : Point) (B : AABCube) :
    (∀ x : Point, insideCube x B →
      computeSqrDistanceToBounds q B ≤ (q - x).sqrLength) ∧
    (insideCube q B → computeSqrDistanceToBounds q B = 0) := by
  have e : computeSqrDistanceToBounds q B =
      max (|q.x - B.center.x| - B.halfWidth) 0 *
        max (|q.x - B.center.x| - B.halfWidth) 0 +
      max (|q.y - B.center.y| - B.halfWidth) 0 *
        max (|q.y - B.center.y| - B.halfWidth) 0 +
      max (|q.z - B.center.z| - B.halfWidth) 0 *
        max (|q.z - B.center.z| - B.halfWidth) 0 := rfl
  constructor
  · rintro x ⟨hx1, hx2, hx3⟩
    have e2 : (q - x).sqrLength =
        (q.x - x.x) * (q.x - x.x) + (q.y - x.y) * (q.y - x.y) +
          (q.z - x.z) * (q.z - x.z) := rfl
    have t1 := axisBound q.x B.center.x x.x B.halfWidth hx1
    have t2 := axisBound q.y B.center.y x.y B.halfWidth hx2
    have t3 := axisBound q.z B.center.z x.z B.halfWidth hx3
    rw [e, e2]
    linarith
  · rintro ⟨h1, h2, h3⟩
    have m1 : max (|q.x - B.center.x| - B.halfWidth) 0 = 0 :=
      max_eq_right (by linarith)
    have m2 : max (|q.y - B.center.y| - B.halfWidth) 0 = 0 :=
      max_eq_right (by linarith)
    have m3 : max (|q.z - B.center.z| - B.halfWidth) 0 = 0 :=
      max_eq_right (by linarith)
    rw [e, m1, m2, m3]
    ring

theorem claim_C5_witness :
    computeSqrDistanceToBounds ⟨2, 0, 0⟩ ⟨⟨0, 0, 0⟩, 1⟩ ≤
      ((⟨2, 0, 0⟩ : Point) - ⟨1, 0, 0⟩).sqrLength ∧
    computeSqrDistanceToBounds ⟨1/2, 0, 0⟩ ⟨⟨0, 0, 0⟩, 1⟩ = 0 :=
  ⟨(claim_C5 ⟨2, 0, 0⟩ ⟨⟨0, 0, 0⟩, 1⟩).1 ⟨1, 0, 0⟩
      (by constructor
          · norm_num
          · constructor <;> norm_num),
   (claim_C5 ⟨1/2, 0, 0⟩ ⟨⟨0, 0, 0⟩, 1⟩).2
      (by constructor
          · rw [abs_le]; norm_num
          · constructor <;> norm_num)⟩

end cpom

namespace cpom

/-- Claim C6: the face solver dispatches on arity exactly as the spec says:
three vertex faces call the triangle solver once, four vertex faces take
the smaller of the two diagonal triangles with ties going to the first,
and any other arity is an unsupported arity error. -/
theorem claim_C6 (face : Face) (vertices : List Point) (q : Point) :
    (face.vertexIds.length = 3 →
      computeClosestPointOnFace face vertices q =
        computeClosestPointOnTriangle
          (getVertex vertices (face.vertexIds.getD 0 0))
          (getVertex vertices (face.vertexIds.getD 1 0))
          (getVertex vertices (face.vertexIds.getD 2 0)) q) ∧
    (face.vertexIds.length = 4 →
      ∀ r1 r2 : Point × ℚ,
        computeClosestPointOnTriangle
          (getVertex vertices (face.vertexIds.getD 0 0))
          (getVertex vertices (face.vertexIds.getD 1 0))
          (getVertex vertices (face.vertexIds.getD 2 0)) q = .ok r1 →
        computeClosestPointOnTriangle
          (getVertex vertices (face.vertexIds.getD 2 0))
          (getVertex vertices (face.vertexIds.getD 3 0))
          (getVertex vertices (face.vertexIds.getD 0 0)) q = .ok r2 →
        computeClosestPointOnFace face vertices q =
          .ok (if r2.2 < r1.2 then r2 else r1) ∧
        (if r2.2 < r1.2 then r2 else r1).2 = min r1.2 r2.2 ∧
        (r1.2 ≤ r2.2 → computeClosestPointOnFace face vertices q = .ok r1)) ∧
    (¬ (3 ≤ face.vertexIds.length ∧ face.vertexIds.length ≤ 4) →
      computeClosestPointOnFace face vertices q = .error .unsupportedArity) := by
  refine ⟨?_, ?_, ?_⟩
  · intro h3
    simp only [computeClosestPointOnFace]
    rw [if_neg (by omega)]
    cases hT : computeClosestPointOnTriangle
        (getVertex vertices (face.vertexIds.getD 0 0))
        (getVertex vertices (face.vertexIds.getD 1 0))
        (getVertex vertices (face.vertexIds.getD 2 0)) q with
    | error err => rfl
    | ok r1 => simp [h3]
  · intro h4 r1 r2 hr1 hr2
    have key : computeClosestPointOnFace face vertices q =
        .ok (if r2.2 < r1.2 then r2 else r1) := by
      simp only [computeClosestPointOnFace]
      rw [if_neg (by omega)]
      simp only [hr1]
      rw [if_neg (by omega)]
      simp only [hr2]
    refine ⟨key, ?_, ?_⟩
    · by_cases hlt : r2.2 < r1.2
      · rw [if_pos hlt]
        exact (min_eq_right hlt.le).symm
      · rw [if_neg hlt]
        exact (min_eq_left (not_lt.mp hlt)).symm
    · intro hle
      rw [key, if_neg (not_lt.mpr hle)]
  · intro hbad
    have hsplit : face.vertexIds.length < 3 ∨ 4 < face.vertexIds.length := by
      omega
    simp only [computeClosestPointOnFace]
    rw [if_pos hsplit]

theorem claim_C6_witness :
    computeClosestPointOnFace ⟨[0, 1, 2, 3]⟩
        [⟨0, 0, 0⟩, ⟨1, 0, 0⟩, ⟨1, 1, 0⟩, ⟨0, 1, 0⟩] ⟨2, 1/2, 0⟩ =
      .ok (⟨1, 1/2, 0⟩, 1) := by
  have h := (claim_C6 ⟨[0, 1, 2, 3]⟩
      [⟨0, 0, 0⟩, ⟨1, 0, 0⟩, ⟨1, 1, 0⟩, ⟨0, 1, 0⟩] ⟨2, 1/2, 0⟩).2.1 rfl
      (⟨1, 1/2, 0⟩, 1) (⟨1, 1, 0⟩, 5/4) (by decide) (by decide)
  have h2 := h.2.2 (by norm_num)
  exact h2

/-- Skipping an error free prefix of the face fold: the accumulator after
the prefix exists and the fold continues on the remaining faces. -/
theorem processMeshAux_append (verts : List Point) (q : Point) (s : ℚ)
    (pre : List Face) :
    ∀ (rest : List Face) (acc : Option (Point × ℚ)),
      (∀ f ∈ pre, ∃ v, computeClosestPointOnFace f verts q = .ok v) →
      ∃ acc2, processMeshAux verts q s (pre ++ rest) acc =
        processMeshAux verts q s rest acc2 := by
  induction pre with
  | nil => exact fun rest acc _ => ⟨acc, rfl⟩
  | cons f pre ih =>
    intro rest acc h
    obtain ⟨v, hv⟩ := h f (List.mem_cons_self f pre)
    have step : processMeshAux verts q s ((f :: pre) ++ rest) acc =
        processMeshAux verts q s (pre ++ rest) (updateClosest s acc v) := by
      simp [processMeshAux, hv]
    obtain ⟨acc2, h2⟩ := ih rest (updateClosest s acc v)
      (fun g hg => h g (List.mem_cons_of_mem f hg))
    exact ⟨acc2, step.trans h2⟩

/-- A collinear vertex triple zeroes the determinant of the triangle
solver. -/
theorem collinear_det (v0 v1 v2 : Point) (h : collinearTriple v0 v1 v2) :
    triA v0 v1 * triC v0 v2 - triB v0 v1 v2 * triB v0 v1 v2 = 0 := by
  obtain ⟨k, h | h⟩ := h
  · simp only [triA, triB, triC, Float3.dot, h, Float3.smul_def]
    ring
  · simp only [triA, triB, triC, Float3.dot, h, Float3.smul_def]
    ring

/-- The triangle solver raises the degenerate triangle error on every
collinear vertex triple, for every query point. -/
theorem collinear_solver_error (v0 v1 v2 q : Point)
    (h : collinearTriple v0 v1 v2) :
    computeClosestPointOnTriangle v0 v1 v2 q = .error .degenerateTriangle := by
  have hdet := collinear_det v0 v1 v2 h
  simp only [triA, triB, triC, Float3.dot] at hdet
  simp only [computeClosestPointOnTriangle, Float3.dot]
  rw [if_pos hdet]

/-- Claim C7: a face whose first three vertices are collinear is accepted
at construction for every face list, and a query that reaches that face on
the linear path raises the degenerate triangle error rather than returning
a sentinel or a partial result. -/
theorem claim_C7 (verts : List Point) (hv : verts ≠ []) (bad : Face)
    (q : Point) (r : ℚ)
    (harity : 3 ≤ bad.vertexIds.length ∧ bad.vertexIds.length ≤ 4)
    (hcol : collinearTriple (getVertex verts (bad.vertexIds.getD 0 0))
      (getVertex verts (bad.vertexIds.getD 1 0))
      (getVertex verts (bad.vertexIds.getD 2 0))) :
    (∀ faces : List Face, ∃ impl, mkImpl ⟨verts, faces⟩ = .ok impl) ∧
    (∀ pre post : List Face,
      (∀ f ∈ pre, ∃ v, computeClosestPointOnFace f verts q = .ok v) →
      (pre ++ bad :: post).length < minSpacePartitioningFaces →
      queryMesh ⟨verts, pre ++ bad :: post⟩ q r =
        .error .degenerateTriangle) := by
  have hne : verts.isEmpty = false := by simp [List.isEmpty_iff, hv]
  constructor
  · intro faces
    refine ⟨⟨verts, faces,
      if minSpacePartitioningFaces ≤ faces.length then
        some (partitionSpace verts faces) else none⟩, ?_⟩
    unfold mkImpl
    rw [if_neg (by simp [hne])]
  · intro pre post hpre hlen
    have hbadq : computeClosestPointOnFace bad verts q =
        .error .degenerateTriangle := by
      simp only [computeClosestPointOnFace]
      rw [if_neg (by omega), collinear_solver_error _ _ _ q hcol]
    have himpl : mkImpl ⟨verts, pre ++ bad :: post⟩ =
        .ok ⟨verts, pre ++ bad :: post, none⟩ := by
      unfold mkImpl
      rw [if_neg (by simp [hne]), if_neg (by simp only [ ]; omega)]
    obtain ⟨acc2, hskip⟩ :=
      processMeshAux_append verts q (r * r) pre (bad :: post) none hpre
    have hrun : processMeshAux verts q (r * r) (bad :: post) acc2 =
        .error .degenerateTriangle := by
      simp [processMeshAux, hbadq]
    simp only [queryMesh, himpl, queryCPQ, processMesh, hskip, hrun,
      Except.map]

theorem claim_C7_witness :
    (∃ impl, mkImpl ⟨[⟨0, 0, 0⟩, ⟨1, 0, 0⟩, ⟨2, 0, 0⟩, ⟨3, 0, 0⟩],
        [⟨[0, 1, 2, 3]⟩]⟩ = .ok impl) ∧
    queryMesh ⟨[⟨0, 0, 0⟩, ⟨1, 0, 0⟩, ⟨2, 0, 0⟩, ⟨3, 0, 0⟩],
        [⟨[0, 1, 2, 3]⟩]⟩ ⟨0, 5, 0⟩ 10 = .error .degenerateTriangle := by
  have h := claim_C7 [⟨0, 0, 0⟩, ⟨1, 0, 0⟩, ⟨2, 0, 0⟩, ⟨3, 0, 0⟩] (by simp)
      ⟨[0, 1, 2, 3]⟩ ⟨0, 5, 0⟩ 10 (by constructor <;> norm_num)
      ⟨1/2, Or.inl (by decide)⟩
  exact ⟨h.1 [⟨[0, 1, 2, 3]⟩], by
    have h2 := h.2 [] [] (by simp) (by decide)
    exact h2⟩

end cpom

namespace cpom

/-- Algebraic identity behind the positivity of the edge branch
denominator: a (a - 2b + c) = det + (a - b)^2. -/
theorem denom_identity (a b c : ℚ) :
    a * (a - 2 * b + c) = (a * c - b * b) + (a - b) ^ 2 := by ring

/-- Lagrange identity: the solver determinant is the squared length of the
cross product of the two edges. -/
theorem det_as_cross (v0 v1 v2 : Point) :
    triA v0 v1 * triC v0 v2 - triB v0 v1 v2 * triB v0 v1 v2 =
      ((v1 - v0).y * (v2 - v0).z - (v1 - v0).z * (v2 - v0).y) ^ 2 +
      ((v1 - v0).z * (v2 - v0).x - (v1 - v0).x * (v2 - v0).z) ^ 2 +
      ((v1 - v0).x * (v2 - v0).y - (v1 - v0).y * (v2 - v0).x) ^ 2 := by
  simp only [triA, triB, triC, Float3.dot]
  ring

/-- The solver determinant is never negative. -/
theorem det_nonneg (v0 v1 v2 : Point) :
    0 ≤ triA v0 v1 * triC v0 v2 - triB v0 v1 v2 * triB v0 v1 v2 := by
  rw [det_as_cross]
  positivity

/-- A nonzero solver determinant is strictly positive. -/
theorem det_pos (v0 v1 v2 : Point)
    (h : triA v0 v1 * triC v0 v2 - triB v0 v1 v2 * triB v0 v1 v2 ≠ 0) :
    0 < triA v0 v1 * triC v0 v2 - triB v0 v1 v2 * triB v0 v1 v2 :=
  lt_of_le_of_ne (det_nonneg v0 v1 v2) (Ne.symm h)

/-- A sum of three squares vanishes only if each summand does. -/
theorem sq3_zero (x y z : ℚ) (h : x * x + y * y + z * z = 0) :
    x = 0 ∧ y = 0 ∧ z = 0 := by
  refine ⟨?_, ?_, ?_⟩ <;>
    [skip; skip; skip] <;>
    first
      | exact mul_self_eq_zero.mp (le_antisymm
          (by nlinarith [mul_self_nonneg y, mul_self_nonneg z])
          (mul_self_nonneg x))
      | exact mul_self_eq_zero.mp (le_antisymm
          (by nlinarith [mul_self_nonneg x, mul_self_nonneg z])
          (mul_self_nonneg y))
      | exact mul_self_eq_zero.mp (le_antisymm
          (by nlinarith [mul_self_nonneg x, mul_self_nonneg y])
          (mul_self_nonneg z))

/-- A degenerate first edge zeroes the determinant. -/
theorem triA_zero_det (v0 v1 v2 : Point) (ha : triA v0 v1 = 0) :
    triA v0 v1 * triC v0 v2 - triB v0 v1 v2 * triB v0 v1 v2 = 0 := by
  simp only [triA, Float3.dot] at ha
  obtain ⟨hx, hy, hz⟩ := sq3_zero _ _ _ ha
  simp only [triA, triB, triC, Float3.dot, hx, hy, hz]
  ring

/-- A degenerate second edge zeroes the determinant. -/
theorem triC_zero_det (v0 v1 v2 : Point) (hc : triC v0 v2 = 0) :
    triA v0 v1 * triC v0 v2 - triB v0 v1 v2 * triB v0 v1 v2 = 0 := by
  simp only [triC, Float3.dot] at hc
  obtain ⟨hx, hy, hz⟩ := sq3_zero _ _ _ hc
  simp only [triA, triB, triC, Float3.dot, hx, hy, hz]
  ring

/-- A nonzero determinant forces a strictly positive coefficient a. -/
theorem triA_pos (v0 v1 v2 : Point)
    (h : triA v0 v1 * triC v0 v2 - triB v0 v1 v2 * triB v0 v1 v2 ≠ 0) :
    0 < triA v0 v1 := by
  rcases lt_or_eq_of_le (by
      simp only [triA, Float3.dot]
      nlinarith [mul_self_nonneg (v1 - v0).x, mul_self_nonneg (v1 - v0).y,
        mul_self_nonneg (v1 - v0).z] :
      (0 : ℚ) ≤ triA v0 v1) with hlt | heq
  · exact hlt
  · exact absurd (triA_zero_det v0 v1 v2 heq.symm) h

/-- A nonzero determinant forces a strictly positive coefficient c. -/
theorem triC_pos (v0 v1 v2 : Point)
    (h : triA v0 v1 * triC v0 v2 - triB v0 v1 v2 * triB v0 v1 v2 ≠ 0) :
    0 < triC v0 v2 := by
  rcases lt_or_eq_of_le (by
      simp only [triC, Float3.dot]
      nlinarith [mul_self_nonneg (v2 - v0).x, mul_self_nonneg (v2 - v0).y,
        mul_self_nonneg (v2 - v0).z] :
      (0 : ℚ) ≤ triC v0 v2) with hlt | heq
  · exact hlt
  · exact absurd (triC_zero_det v0 v1 v2 heq.symm) h

/-- A strictly positive determinant forces a strictly positive edge branch
denominator a - 2b + c. -/
theorem denom_pos (v0 v1 v2 : Point)
    (h : triA v0 v1 * triC v0 v2 - triB v0 v1 v2 * triB v0 v1 v2 ≠ 0) :
    0 < triA v0 v1 - 2 * triB v0 v1 v2 + triC v0 v2 := by
  have ha := triA_pos v0 v1 v2 h
  have hdet := det_pos v0 v1 v2 h
  have hid := denom_identity (triA v0 v1) (triB v0 v1 v2) (triC v0 v2)
  by_contra hle
  push_neg at hle
  nlinarith [sq_nonneg (triA v0 v1 - triB v0 v1 v2), mul_nonpos_of_nonneg_of_nonpos ha.le hle]

end cpom

namespace cpom

/-- Claim C9: once the determinant guard has passed, a and c are strictly
positive, det is strictly positive, and every division the solver executes
has a strictly positive divisor: the checked division twin of the solver
returns exactly the value the solver returns. -/
theorem claim_C9 (v0 v1 v2 q : Point)
    (hdet : triA v0 v1 * triC v0 v2 - triB v0 v1 v2 * triB v0 v1 v2 ≠ 0) :
    0 < triA v0 v1 ∧ 0 < triC v0 v2 ∧
    0 < triA v0 v1 * triC v0 v2 - triB v0 v1 v2 * triB v0 v1 v2 ∧
    ∃ p, computeClosestPointOnTriangle v0 v1 v2 q = .ok p ∧
      computeClosestPointOnTriangleChk v0 v1 v2 q = some p := by
  have ha := triA_pos v0 v1 v2 hdet
  have hc := triC_pos v0 v1 v2 hdet
  have hdpos := det_pos v0 v1 v2 hdet
  have hdenom := denom_pos v0 v1 v2 hdet
  refine ⟨ha, hc, hdpos, ?_⟩
  simp only [triA, triB, triC] at ha hc hdpos hdenom hdet
  simp only [computeClosestPointOnTriangle, computeClosestPointOnTriangleChk]
  rw [if_neg hdet, if_neg hdet]
  refine ⟨_, rfl, ?_⟩
  split_ifs <;>
    first
      | rfl
      | (simp only [chkDiv]
         rw [if_pos (by linarith)]
         rfl)

end cpom

namespace cpom

theorem claim_C9_witness :
    0 < triA ⟨0, 0, 0⟩ ⟨1, 0, 0⟩ ∧ 0 < triC ⟨0, 0, 0⟩ ⟨0, 1, 0⟩ ∧
    0 < triA ⟨0, 0, 0⟩ ⟨1, 0, 0⟩ * triC ⟨0, 0, 0⟩ ⟨0, 1, 0⟩ -
      triB ⟨0, 0, 0⟩ ⟨1, 0, 0⟩ ⟨0, 1, 0⟩ * triB ⟨0, 0, 0⟩ ⟨1, 0, 0⟩ ⟨0, 1, 0⟩ ∧
    ∃ p, computeClosestPointOnTriangle ⟨0, 0, 0⟩ ⟨1, 0, 0⟩ ⟨0, 1, 0⟩
        ⟨1, 1, 0⟩ = .ok p ∧
      computeClosestPointOnTriangleChk ⟨0, 0, 0⟩ ⟨1, 0, 0⟩ ⟨0, 1, 0⟩
        ⟨1, 1, 0⟩ = some p :=
  claim_C9 ⟨0, 0, 0⟩ ⟨1, 0, 0⟩ ⟨0, 1, 0⟩ ⟨1, 1, 0⟩ (by decide)

/-- The Region 2 pair as the solver builds it, rewritten through clamp01:
it equals region2Code, whose else branch sets t = 1 when tmp1 ≤ 0. -/
theorem region2_pair (a b c d e : ℚ) (hden : 0 < a - 2 * b + c)
    (hc : 0 < c) :
    (if c + e > b + d then
      (if c + e - (b + d) ≥ a - 2 * b + c then (1 : ℚ)
       else (c + e - (b + d)) / (a - 2 * b + c),
       1 - (if c + e - (b + d) ≥ a - 2 * b + c then (1 : ℚ)
       else (c + e - (b + d)) / (a - 2 * b + c)))
     else if c + e ≤ 0 then ((0 : ℚ), (1 : ℚ))
     else if e ≥ 0 then ((0 : ℚ), (0 : ℚ))
     else ((0 : ℚ), -e / c)) =
    region2Code a b c d e := by
  unfold region2Code clamp01
  by_cases h1 : c + e > b + d
  · rw [if_pos h1, if_pos h1]
    have hXpos : 0 < (c + e - (b + d)) / (a - 2 * b + c) :=
      div_pos (by linarith) hden
    by_cases h2 : c + e - (b + d) ≥ a - 2 * b + c
    · rw [if_pos h2, if_neg (not_lt.mpr hXpos.le)]
      have hX1 : 1 ≤ (c + e - (b + d)) / (a - 2 * b + c) :=
        (one_le_div hden).mpr h2
      by_cases h3 : 1 < (c + e - (b + d)) / (a - 2 * b + c)
      · rw [if_pos h3]
      · rw [if_neg h3, le_antisymm (not_lt.mp h3) hX1]
    · rw [if_neg h2]
      have hX1 : (c + e - (b + d)) / (a - 2 * b + c) < 1 :=
        (div_lt_one hden).mpr (by linarith [not_le.mp h2])
      rw [if_neg (not_lt.mpr hXpos.le), if_neg (not_lt.mpr hX1.le)]
  · rw [if_neg h1, if_neg h1]
    by_cases h2 : c + e ≤ 0
    · rw [if_pos h2, if_pos h2]
    · rw [if_neg h2, if_neg h2]
      by_cases h3 : e ≥ 0
      · rw [if_pos h3, if_pos h3]
      · rw [if_neg h3, if_neg h3]
        have hpos : 0 < -e / c := div_pos (by linarith [not_le.mp h3]) hc
        have hlt : -e / c < 1 :=
          (div_lt_one hc).mpr (by linarith [not_le.mp h2])
        rw [if_neg (not_lt.mpr hpos.le), if_neg (not_lt.mpr hlt.le)]

/-- Claim C4, amended: in Region 2 (det < s1 + t1, s1 < 0, det nonzero)
the solver returns the point built from the region2Code pair, whose else
branch sets t = 1 when tmp1 ≤ 0; the claim as stated, with t = 0 there, is
refuted by the separate counterexample. -/
theorem claim_C4 (v0 v1 v2 q : Point)
    (hdet : triA v0 v1 * triC v0 v2 - triB v0 v1 v2 * triB v0 v1 v2 ≠ 0)
    (hgt : triA v0 v1 * triC v0 v2 - triB v0 v1 v2 * triB v0 v1 v2 <
      triS1 v0 v1 v2 q + triT1 v0 v1 v2 q)
    (hs1 : triS1 v0 v1 v2 q < 0) :
    computeClosestPointOnTriangle v0 v1 v2 q =
      .ok (v0 + (v1 - v0) *
            (region2Code (triA v0 v1) (triB v0 v1 v2) (triC v0 v2)
              (triD v0 v1 q) (triE v0 v2 q)).1 +
          (v2 - v0) *
            (region2Code (triA v0 v1) (triB v0 v1 v2) (triC v0 v2)
              (triD v0 v1 q) (triE v0 v2 q)).2,
        (q - (v0 + (v1 - v0) *
            (region2Code (triA v0 v1) (triB v0 v1 v2) (triC v0 v2)
              (triD v0 v1 q) (triE v0 v2 q)).1 +
          (v2 - v0) *
            (region2Code (triA v0 v1) (triB v0 v1 v2) (triC v0 v2)
              (triD v0 v1 q) (triE v0 v2 q)).2)).sqrLength) := by
  have hc := triC_pos v0 v1 v2 hdet
  have hden := denom_pos v0 v1 v2 hdet
  have hst := region2_pair (triA v0 v1) (triB v0 v1 v2) (triC v0 v2)
    (triD v0 v1 q) (triE v0 v2 q) hden hc
  simp only [triA, triB, triC, triD, triE] at hst
  simp only [triS1, triT1, triA, triB, triC, triD, triE] at hs1 hgt
  simp only [triA, triB, triC, triD, triE] at hdet
  simp only [computeClosestPointOnTriangle]
  rw [if_neg hdet, if_neg (not_le.mpr hgt), if_pos hs1, hst]
  simp only [triA, triB, triC, triD, triE]

end cpom

namespace cpom

theorem claim_C4_witness :
    computeClosestPointOnTriangle ⟨0, 0, 0⟩ ⟨1, 0, 0⟩ ⟨0, 1, 0⟩
        ⟨-1/2, 2, 0⟩ =
      .ok ((⟨0, 0, 0⟩ : Point) + ((⟨1, 0, 0⟩ : Point) - (⟨0, 0, 0⟩ : Point)) *
            (region2Code (triA ⟨0, 0, 0⟩ ⟨1, 0, 0⟩)
              (triB ⟨0, 0, 0⟩ ⟨1, 0, 0⟩ ⟨0, 1, 0⟩) (triC ⟨0, 0, 0⟩ ⟨0, 1, 0⟩)
              (triD ⟨0, 0, 0⟩ ⟨1, 0, 0⟩ ⟨-1/2, 2, 0⟩)
              (triE ⟨0, 0, 0⟩ ⟨0, 1, 0⟩ ⟨-1/2, 2, 0⟩)).1 +
          ((⟨0, 1, 0⟩ : Point) - (⟨0, 0, 0⟩ : Point)) *
            (region2Code (triA ⟨0, 0, 0⟩ ⟨1, 0, 0⟩)
              (triB ⟨0, 0, 0⟩ ⟨1, 0, 0⟩ ⟨0, 1, 0⟩) (triC ⟨0, 0, 0⟩ ⟨0, 1, 0⟩)
              (triD ⟨0, 0, 0⟩ ⟨1, 0, 0⟩ ⟨-1/2, 2, 0⟩)
              (triE ⟨0, 0, 0⟩ ⟨0, 1, 0⟩ ⟨-1/2, 2, 0⟩)).2,
        ((⟨-1/2, 2, 0⟩ : Point) - (((⟨0, 0, 0⟩ : Point) +
            ((⟨1, 0, 0⟩ : Point) - (⟨0, 0, 0⟩ : Point)) *
            (region2Code (triA ⟨0, 0, 0⟩ ⟨1, 0, 0⟩)
              (triB ⟨0, 0, 0⟩ ⟨1, 0, 0⟩ ⟨0, 1, 0⟩) (triC ⟨0, 0, 0⟩ ⟨0, 1, 0⟩)
              (triD ⟨0, 0, 0⟩ ⟨1, 0, 0⟩ ⟨-1/2, 2, 0⟩)
              (triE ⟨0, 0, 0⟩ ⟨0, 1, 0⟩ ⟨-1/2, 2, 0⟩)).1 +
          ((⟨0, 1, 0⟩ : Point) - (⟨0, 0, 0⟩ : Point)) *
            (region2Code (triA ⟨0, 0, 0⟩ ⟨1, 0, 0⟩)
              (triB ⟨0, 0, 0⟩ ⟨1, 0, 0⟩ ⟨0, 1, 0⟩) (triC ⟨0, 0, 0⟩ ⟨0, 1, 0⟩)
              (triD ⟨0, 0, 0⟩ ⟨1, 0, 0⟩ ⟨-1/2, 2, 0⟩)
              (triE ⟨0, 0, 0⟩ ⟨0, 1, 0⟩ ⟨-1/2, 2, 0⟩)).2 : Point))).sqrLength) :=
  claim_C4 ⟨0, 0, 0⟩ ⟨1, 0, 0⟩ ⟨0, 1, 0⟩ ⟨-1/2, 2, 0⟩
    (by decide) (by decide) (by decide)

theorem claim_C4_counterexample :
    triS1 ⟨0, 0, 0⟩ ⟨1, 0, 0⟩ ⟨0, 1, 0⟩ ⟨-1/2, 2, 0⟩ < 0 ∧
    triA ⟨0, 0, 0⟩ ⟨1, 0, 0⟩ * triC ⟨0, 0, 0⟩ ⟨0, 1, 0⟩ -
        triB ⟨0, 0, 0⟩ ⟨1, 0, 0⟩ ⟨0, 1, 0⟩ *
          triB ⟨0, 0, 0⟩ ⟨1, 0, 0⟩ ⟨0, 1, 0⟩ <
      triS1 ⟨0, 0, 0⟩ ⟨1, 0, 0⟩ ⟨0, 1, 0⟩ ⟨-1/2, 2, 0⟩ +
        triT1 ⟨0, 0, 0⟩ ⟨1, 0, 0⟩ ⟨0, 1, 0⟩ ⟨-1/2, 2, 0⟩ ∧
    computeClosestPointOnTriangle ⟨0, 0, 0⟩ ⟨1, 0, 0⟩ ⟨0, 1, 0⟩
        ⟨-1/2, 2, 0⟩ = .ok (⟨0, 1, 0⟩, 5/4) ∧
    region2Claimed (triA ⟨0, 0, 0⟩ ⟨1, 0, 0⟩)
        (triB ⟨0, 0, 0⟩ ⟨1, 0, 0⟩ ⟨0, 1, 0⟩) (triC ⟨0, 0, 0⟩ ⟨0, 1, 0⟩)
        (triD ⟨0, 0, 0⟩ ⟨1, 0, 0⟩ ⟨-1/2, 2, 0⟩)
        (triE ⟨0, 0, 0⟩ ⟨0, 1, 0⟩ ⟨-1/2, 2, 0⟩) = (0, 0) ∧
    region2Code (triA ⟨0, 0, 0⟩ ⟨1, 0, 0⟩)
        (triB ⟨0, 0, 0⟩ ⟨1, 0, 0⟩ ⟨0, 1, 0⟩) (triC ⟨0, 0, 0⟩ ⟨0, 1, 0⟩)
        (triD ⟨0, 0, 0⟩ ⟨1, 0, 0⟩ ⟨-1/2, 2, 0⟩)
        (triE ⟨0, 0, 0⟩ ⟨0, 1, 0⟩ ⟨-1/2, 2, 0⟩) = (0, 1) ∧
    ((0 : ℚ), (0 : ℚ)) ≠ ((0 : ℚ), (1 : ℚ)) ∧
    (⟨0, 0, 0⟩ : Point) + ((⟨1, 0, 0⟩ : Point) - (⟨0, 0, 0⟩ : Point)) * (0 : ℚ) +
        ((⟨0, 1, 0⟩ : Point) - (⟨0, 0, 0⟩ : Point)) * (0 : ℚ) ≠ (⟨0, 1, 0⟩ : Point) := by
  refine ⟨by decide, by decide, by decide, by decide, by decide, by decide,
    by decide⟩

/-- Claim C3: at the Region 6 input below (t1 < 0, s1 ≥ 0, det < s1 + t1)
the solver returns a pair that differs from the point the region-2-swapped
formula of the claim builds, and the returned squared distance is not even
minimal: the vertex v1 of the triangle is strictly closer to the query
point than the returned point.  Source line 188 assigns s2 = 1 - s2 while
s2 still holds s1, so s becomes 1 - s1 instead of 1 - t2. -/
theorem claim_C3 :
    triT1 ⟨0, 0, 0⟩ ⟨1, 0, 0⟩ ⟨10, 1, 0⟩ ⟨6/5, -1, 0⟩ < 0 ∧
    0 ≤ triS1 ⟨0, 0, 0⟩ ⟨1, 0, 0⟩ ⟨10, 1, 0⟩ ⟨6/5, -1, 0⟩ ∧
    triA ⟨0, 0, 0⟩ ⟨1, 0, 0⟩ * triC ⟨0, 0, 0⟩ ⟨10, 1, 0⟩ -
        triB ⟨0, 0, 0⟩ ⟨1, 0, 0⟩ ⟨10, 1, 0⟩ *
          triB ⟨0, 0, 0⟩ ⟨1, 0, 0⟩ ⟨10, 1, 0⟩ <
      triS1 ⟨0, 0, 0⟩ ⟨1, 0, 0⟩ ⟨10, 1, 0⟩ ⟨6/5, -1, 0⟩ +
        triT1 ⟨0, 0, 0⟩ ⟨1, 0, 0⟩ ⟨10, 1, 0⟩ ⟨6/5, -1, 0⟩ ∧
    computeClosestPointOnTriangle ⟨0, 0, 0⟩ ⟨1, 0, 0⟩ ⟨10, 1, 0⟩
        ⟨6/5, -1, 0⟩ = .ok (⟨-2071/205, 2/205, 0⟩, 5411338/42025) ∧
    region6Claimed (triA ⟨0, 0, 0⟩ ⟨1, 0, 0⟩)
        (triB ⟨0, 0, 0⟩ ⟨1, 0, 0⟩ ⟨10, 1, 0⟩) (triC ⟨0, 0, 0⟩ ⟨10, 1, 0⟩)
        (triD ⟨0, 0, 0⟩ ⟨1, 0, 0⟩ ⟨6/5, -1, 0⟩)
        (triE ⟨0, 0, 0⟩ ⟨10, 1, 0⟩ ⟨6/5, -1, 0⟩) = (203/205, 2/205) ∧
    (⟨0, 0, 0⟩ : Point) + ((⟨1, 0, 0⟩ : Point) - (⟨0, 0, 0⟩ : Point)) * (203/205 : ℚ) +
        ((⟨10, 1, 0⟩ : Point) - (⟨0, 0, 0⟩ : Point)) * (2/205 : ℚ) =
      (⟨223/205, 2/205, 0⟩ : Point) ∧
    ((⟨6/5, -1, 0⟩ : Point) - (⟨223/205, 2/205, 0⟩ : Point)).sqrLength =
      43378/42025 ∧
    (43378/42025 : ℚ) < 5411338/42025 ∧
    ((⟨6/5, -1, 0⟩ : Point) - (⟨1, 0, 0⟩ : Point)).sqrLength < 5411338/42025 := by
  refine ⟨by decide, by decide, by decide, by decide, by decide, by decide,
    by decide, by decide, by decide⟩

end cpom